import Mathlib

/-!
Verification development for the CBSE result-analysis repository
(`student_analysis.py`, `dashboard.py`).

The Python source is shallowly embedded:

* Text lines are `List Char`; `str.strip()` / `re` whitespace is the ASCII
  whitespace set (the repository only handles ASCII exam exports).
* The regular expressions of `parse_student_data_from_lines` are embedded by
  hand-compiled backtracking matchers (`plusGreedy*` mirrors a greedy `+`
  quantifier, `plusLazyCap` a lazy `+?`), preserving the engine's
  backtracking order and `re.match` anchoring.
* A pandas `DataFrame` is a column list plus a list of association-list rows
  (a row built from a Python dict); a missing key is the `NaN` fill that
  `pd.DataFrame(list_of_dicts)` performs.  Cells are `NA`, exact rationals
  (modelling the numeric values; floats are idealised as `ℚ`), or strings.
* Python `None` and float `nan` results of statistics are both modelled as
  `Option.none`; `std` is represented by its square (`stdSq`) because the
  square root of a rational is in general irrational — two (extended) standard
  deviations are equal iff the variances are, so nothing is lost.
* Chart rendering and spreadsheet writing are modelled structurally: a figure
  is the key under which the code stores it, a workbook is its list of sheets
  in creation order.  Excel's 31-character sheet-name limit is not modelled.
-/

/- The Batteries rational-number operations are `@[irreducible]`, which
blocks `decide` on concrete rational data; the kernel reduces them fine, so
restore the default reducibility for evaluation. -/
set_option allowUnsafeReducibility true
attribute [semireducible] Rat.add Rat.sub Rat.mul Rat.inv Rat.ofScientific

/-! ## Python character and string primitives -/

/-- ASCII whitespace, the character set of Python `str.strip()` and of the
regex class `\s` on the data this program handles. -/
def pyIsSpace (c : Char) : Bool :=
  c = ' ' || c = '\t' || c = '\n' || c = '\r' || c = '\x0b' || c = '\x0c'

/-- The regex `.` (no DOTALL): any character except a newline. -/
def isDot (c : Char) : Bool := c ≠ '\n'

/-- Python `str.strip()`: remove leading and trailing whitespace. -/
def pyStrip (l : List Char) : List Char :=
  ((l.dropWhile pyIsSpace).reverse.dropWhile pyIsSpace).reverse

/-- Python `str.lower()` (ASCII). -/
def pyLower (s : String) : String := String.mk (s.toList.map Char.toLower)

/-- Python `str.upper()` (ASCII). -/
def pyUpper (s : String) : String := String.mk (s.toList.map Char.toUpper)

/-- `needle in haystack` for Python strings: substring test. -/
def strContains (haystack needle : String) : Bool :=
  haystack.toList.tails.any (fun t => needle.toList.isPrefixOf t)

/-- Python `str.startswith`. -/
def strStartsWith (s pre : String) : Bool := pre.toList.isPrefixOf s.toList

/-- The first word of `str.split()` (split on whitespace runs, empties
dropped); `none` when the string has no word, in which case Python's
`split()[0]` raises `IndexError`. -/
def firstWord (s : String) : Option String :=
  let t := s.toList.dropWhile pyIsSpace
  if t.isEmpty then none else some (String.mk (t.takeWhile (fun c => !pyIsSpace c)))

/-- Numeric value of a string of decimal digits (Python `int` on a digit
string). -/
def natOfDigits (l : List Char) : Nat :=
  l.foldl (fun acc c => acc * 10 + (c.toNat - '0'.toNat)) 0

/-! ## Backtracking regex combinators

Each combinator consumes characters from a `List Char` and calls its
continuation on the remainder, exploring alternatives in exactly the order of
the CPython `re` engine: a greedy `+` tries the longest extension first, a
lazy `+?` the shortest.  The `Cap` variants additionally accumulate the
characters consumed, giving the capture group's text. -/

/-- Greedy `p+` (at least one `p`-character, longest first), no capture. -/
def plusGreedy {α : Type} (p : Char → Bool) (k : List Char → Option α) :
    List Char → Option α
  | [] => none
  | c :: r =>
    if p c then
      match plusGreedy p k r with
      | some x => some x
      | none => k r
    else none

/-- Greedy `(p+)` with capture accumulator `acc`. -/
def plusGreedyCap {α : Type} (p : Char → Bool)
    (k : List Char → List Char → Option α) :
    List Char → List Char → Option α
  | _, [] => none
  | acc, c :: r =>
    if p c then
      match plusGreedyCap p k (acc ++ [c]) r with
      | some x => some x
      | none => k (acc ++ [c]) r
    else none

/-- Lazy `(p+?)` with capture accumulator `acc` (shortest first). -/
def plusLazyCap {α : Type} (p : Char → Bool)
    (k : List Char → List Char → Option α) :
    List Char → List Char → Option α
  | _, [] => none
  | acc, c :: r =>
    if p c then
      match k (acc ++ [c]) r with
      | some x => some x
      | none => plusLazyCap p k (acc ++ [c]) r
    else none

/-- Does the list start with three regex `\d` digits (`\d{3}`)? -/
def threeDigitsHead : List Char → Bool
  | a :: b :: c :: _ => a.isDigit && b.isDigit && c.isDigit
  | _ => false

/-- Does the list match `\s+\d{3}` at its head (spaces then a three-digit
code)?  This is the part of the strict identity pattern that follows the lazy
name group. -/
def sp3d (l : List Char) : Bool :=
  (plusGreedy pyIsSpace
    (fun r => if threeDigitsHead r then some () else none) l).isSome

/-- Regex `$` without MULTILINE: end of string, or just before a final
newline. -/
def atLineEnd : List Char → Bool
  | [] => true
  | [c] => c = '\n'
  | _ => false

/-! ## The two identity-line patterns

`re.match(r"(\d+)\s+([MF])\s+(.+?)\s+\d{3}", line1)` and the fallback
`re.match(r"(\d+)\s+([MF])\s+(.+)$", line1)` from
`parse_student_data_from_lines`.  The result is the triple of captures
`(roll, gender, name)`. -/

/-- The strict identity pattern `(\d+)\s+([MF])\s+(.+?)\s+\d{3}` anchored at
the start of the line (`re.match`). -/
def matchStrict (l : List Char) : Option (List Char × Char × List Char) :=
  plusGreedyCap Char.isDigit (fun roll r1 =>
    plusGreedy pyIsSpace (fun r2 =>
      match r2 with
      | [] => none
      | g :: r3 =>
        if g = 'M' ∨ g = 'F' then
          plusGreedy pyIsSpace (fun r4 =>
            plusLazyCap isDot (fun name r5 =>
              plusGreedy pyIsSpace (fun r6 =>
                if threeDigitsHead r6 then some (roll, g, name) else none) r5)
              [] r4) r3
        else none) r1) [] l

/-- The fallback identity pattern `(\d+)\s+([MF])\s+(.+)$`. -/
def matchFallback (l : List Char) : Option (List Char × Char × List Char) :=
  plusGreedyCap Char.isDigit (fun roll r1 =>
    plusGreedy pyIsSpace (fun r2 =>
      match r2 with
      | [] => none
      | g :: r3 =>
        if g = 'M' ∨ g = 'F' then
          plusGreedy pyIsSpace (fun r4 =>
            plusGreedyCap isDot (fun name r5 =>
              if atLineEnd r5 then some (roll, g, name) else none) [] r4) r3
        else none) r1) [] l

/-- Lines 25–29 of `student_analysis.py`: try the strict pattern, then the
fallback. -/
def matchLine1 (l : List Char) : Option (List Char × Char × List Char) :=
  match matchStrict l with
  | some r => some r
  | none => matchFallback l

/-! ## The marks/grades pattern

`re.findall(r"(\d{1,3})\s+([A-D][1-2]|E1|E2|F|C2|C1|B2|B1|A2|A1)", line2)`:
all leftmost non-overlapping matches, each contributing the pair of its two
captures. -/

/-- One literal alternative of the grade alternation. -/
def gradeLit (pat l : List Char) : Option (List Char × List Char) :=
  if pat.isPrefixOf l then some (pat, l.drop pat.length) else none

/-- The grade alternation, alternatives tried in the pattern's order. -/
def gradeAlt (l : List Char) : Option (List Char × List Char) :=
  match
    (match l with
     | a :: b :: r =>
       if ('A' ≤ a ∧ a ≤ 'D') ∧ (b = '1' ∨ b = '2') then some ([a, b], r) else none
     | _ => none) with
  | some x => some x
  | none =>
  match gradeLit ['E', '1'] l with
  | some x => some x
  | none =>
  match gradeLit ['E', '2'] l with
  | some x => some x
  | none =>
  match gradeLit ['F'] l with
  | some x => some x
  | none =>
  match gradeLit ['C', '2'] l with
  | some x => some x
  | none =>
  match gradeLit ['C', '1'] l with
  | some x => some x
  | none =>
  match gradeLit ['B', '2'] l with
  | some x => some x
  | none =>
  match gradeLit ['B', '1'] l with
  | some x => some x
  | none =>
  match gradeLit ['A', '2'] l with
  | some x => some x
  | none => gradeLit ['A', '1'] l

/-- `\s+` then the grade alternation (greedy spaces with backtracking). -/
def spacesThenGrade : List Char → Option (List Char × List Char)
  | [] => none
  | c :: r =>
    if pyIsSpace c then
      match spacesThenGrade r with
      | some x => some x
      | none => gradeAlt r
    else none

/-- Anchored match of `(\d{1,3})\s+(grade)`: `\d{1,3}` is greedy, so three
digits are tried before two before one.  Returns (marks capture, grade
capture, remainder after the match). -/
def matchMGAt (l : List Char) : Option (List Char × List Char × List Char) :=
  match
    (match l with
     | a :: b :: c :: r =>
       if a.isDigit && b.isDigit && c.isDigit then
         (spacesThenGrade r).map (fun (gr : List Char × List Char) => ([a, b, c], gr.1, gr.2))
       else none
     | _ => none) with
  | some x => some x
  | none =>
  match
    (match l with
     | a :: b :: r =>
       if a.isDigit && b.isDigit then
         (spacesThenGrade r).map (fun (gr : List Char × List Char) => ([a, b], gr.1, gr.2))
       else none
     | _ => none) with
  | some x => some x
  | none =>
    match l with
    | a :: r =>
      if a.isDigit then
        (spacesThenGrade r).map (fun (gr : List Char × List Char) => ([a], gr.1, gr.2))
      else none
    | _ => none

/-- `re.findall` scan: attempt an anchored match at each position from the
left; on success emit the captures and resume after the match.  The fuel is
the list length, which suffices because every match consumes at least one
character. -/
def findallAux : Nat → List Char → List (List Char × List Char)
  | 0, _ => []
  | fuel + 1, l =>
    match matchMGAt l with
    | some (m, g, rest) => (m, g) :: findallAux fuel rest
    | none =>
      match l with
      | [] => []
      | _ :: r => findallAux fuel r

/-- All (marks, grade) capture pairs of line 2 (source lines 34–36). -/
def findallMG (l : List Char) : List (List Char × List Char) :=
  findallAux l.length l

/-! ## DataFrame model

A cell is `NA` (NaN / missing), an exact rational (idealising the numeric
values the program manipulates), or a string.  A row is the association list
a Python dict becomes; a `DataFrame` is the column list plus the rows, and a
key missing from a row reads as `NA`, which is the fill that
`pd.DataFrame(list_of_dicts)` performs. -/

inductive Cell : Type
  | NA : Cell
  | num : ℚ → Cell
  | str : String → Cell
deriving DecidableEq, Repr

/-- A parsed student record: the Python dict, in insertion order. -/
abbrev Row : Type := List (String × Cell)

/-- Keys of a row, in order. -/
def rowKeys (r : Row) : List String := r.map Prod.fst

/-- Read a key from a row (first binding wins); a missing key is the `NaN`
fill. -/
def getCell : Row → String → Cell
  | [], _ => Cell.NA
  | (k, v) :: rest, c => if k = c then v else getCell rest c

/-- Set a key on a row, replacing it in place when present (Python dict /
pandas column assignment), appending it otherwise. -/
def setCell (r : Row) (c : String) (v : Cell) : Row :=
  match r with
  | [] => [(c, v)]
  | (k, w) :: rest => if k = c then (k, v) :: rest else (k, w) :: setCell rest c v

structure DataFrame : Type where
  cols : List String
  rows : List Row
deriving DecidableEq, Repr

/-- Column order of `pd.DataFrame(list_of_dicts)`: union of the rows' keys in
first-appearance order. -/
def dfColumns (rows : List Row) : List String :=
  rows.foldl (fun acc r => acc ++ (rowKeys r).filter (fun k => !acc.contains k)) []

/-- Numeric value of a cell, `none` for `NA` (and for strings, which numeric
aggregations skip — they cannot occur in a numeric-dtype column). -/
def cellNum : Cell → Option ℚ
  | Cell.num q => some q
  | _ => none

/-- `pd.api.types.is_numeric_dtype` for a column of this model: the column
holds no string, so pandas stored it as an int/float array. -/
def isNumericCol (df : DataFrame) (c : String) : Bool :=
  df.rows.all (fun r => match getCell r c with
    | Cell.str _ => false
    | _ => true)

/-! ## `parse_student_data_from_lines` (source lines 12–51) -/

/-- The normalisation comprehension
`[ln.strip() for ln in lines if ln and ln.strip()]` (line 19). -/
def normalizeLines (lines : List (List Char)) : List (List Char) :=
  lines.filterMap (fun ln =>
    if ln ≠ [] ∧ pyStrip ln ≠ [] then some (pyStrip ln) else none)

/-- `Subject{idx}` column name. -/
def subjKey (idx : Nat) (suffix : String) : String :=
  "Subject" ++ toString idx ++ suffix

/-- The marks cell: `int(re.sub(r"\D", "", marks))`, with the
`except` branch (`np.nan`) when no digit remains. -/
def marksCell (marks : List Char) : Cell :=
  let ds := marks.filter Char.isDigit
  if ds = [] then Cell.NA else Cell.num ((natOfDigits ds : ℕ) : ℚ)

/-- The body of the loop for one (line1, line2) pair: `None` when neither
identity pattern matches (the record is skipped), otherwise the student dict
built on lines 38–46. -/
def rowOfPair (line1 line2 : List Char) : Option Row :=
  match matchLine1 line1 with
  | none => none
  | some (roll, gender, name) =>
    let marks_grades := findallMG line2
    some ([("Roll Number", Cell.str (String.mk roll)),
           ("Name", Cell.str (String.mk (pyStrip name))),
           ("Gender", Cell.str (String.mk [gender]))] ++
          marks_grades.enum.flatMap (fun kmg =>
            [(subjKey (kmg.1 + 1) "_Marks", marksCell kmg.2.1),
             (subjKey (kmg.1 + 1) "_Grade", Cell.str (String.mk kmg.2.2))]))

/-- `range(0, n - 1, 2)`: the even indices below `n - 1`. -/
def pyRange2 (n : Nat) : List Nat :=
  (List.range (n - 1)).filter (fun i => i % 2 == 0)

/-- The pairing loop of lines 21–48 on the normalised line list: index `i`
reads `lines[i]` and `lines[i + 1]`. -/
def parseRowsNorm (ls : List (List Char)) : List Row :=
  (pyRange2 ls.length).filterMap (fun i =>
    rowOfPair (ls.getD i []) (ls.getD (i + 1) []))

/-- `parse_student_data_from_lines` (lines 12–51): normalise, pair, parse,
build the DataFrame. -/
def parse_student_data_from_lines (lines : List (List Char)) : DataFrame :=
  let rows := parseRowsNorm (normalizeLines lines)
  { cols := dfColumns rows, rows := rows }

/-! ## `map_subjects_to_names` (lines 60–79) -/

/-- The default `Subject1..Subject5 → ENG, LANG II, MATH, SCI, SOC`
rename mapping. -/
def defaultMapping : List (String × String) :=
  [("Subject1_Marks", "ENG"), ("Subject1_Grade", "ENG GRADE"),
   ("Subject2_Marks", "LANG II"), ("Subject2_Grade", "LANG II GRADE"),
   ("Subject3_Marks", "MATH"), ("Subject3_Grade", "MATH GRADE"),
   ("Subject4_Marks", "SCI"), ("Subject4_Grade", "SCI GRADE"),
   ("Subject5_Marks", "SOC"), ("Subject5_Grade", "SOC GRADE")]

/-- Apply a rename mapping to one label (`df.rename` renames a label when the
mapping defines it and keeps it otherwise). -/
def renameLabel (mapping : List (String × String)) (c : String) : String :=
  match mapping.lookup c with
  | some c2 => c2
  | none => c

/-- `map_subjects_to_names` with the default mapping (`mapping=None`):
`df.rename(columns=mapping)` relabels columns, leaving the data unchanged. -/
def map_subjects_to_names (df : DataFrame) : DataFrame :=
  { cols := df.cols.map (renameLabel defaultMapping),
    rows := df.rows.map (fun r =>
      r.map (fun kv => (renameLabel defaultMapping kv.1, kv.2))) }

/-! ## `get_subject_mark_cols` and `add_total_marks` (lines 82–99) -/

/-- Lines 82–91: the numeric-dtype columns whose upper-cased name does not
contain `"GRADE"` and that are not `Roll Number` / `Gender`. -/
def get_subject_mark_cols (df : DataFrame) : List String :=
  df.cols.filter (fun c =>
    isNumericCol df c
    && !(strContains (pyUpper c) "GRADE")
    && !(c = "Roll Number" ∨ c = "Gender" : Bool))

/-- Row sum of the mark columns, `skipna=True`: `NA` cells are skipped
(equivalently count as zero). -/
def rowTotal (markCols : List String) (r : Row) : ℚ :=
  (markCols.filterMap (fun c => cellNum (getCell r c))).sum

/-- Lines 94–99: `df = df.copy(); df["Total"] = df[mark_cols].sum(axis=1,
skipna=True)`.  The copy makes the input unaffected; the new frame gains (or
overwrites) the `Total` column. -/
def add_total_marks (df : DataFrame) : DataFrame :=
  let markCols := get_subject_mark_cols df
  { cols := if df.cols.contains "Total" then df.cols else df.cols ++ ["Total"],
    rows := df.rows.map (fun r => setCell r "Total" (Cell.num (rowTotal markCols r))) }

/-! ## Series aggregation (pandas semantics)

A series is a `List (Option ℚ)`: `none` is `NaN`.  The aggregations skip
missing values (`skipna`), as the pandas defaults do. -/

/-- `series.sum()` with NA skipped. -/
def seriesSum (s : List (Option ℚ)) : ℚ :=
  s.foldl (fun acc o => match o with | some q => acc + q | none => acc) 0

/-- `series.count()`: the number of non-missing entries. -/
def seriesCount (s : List (Option ℚ)) : ℕ :=
  s.foldl (fun acc o => match o with | some _ => acc + 1 | none => acc) 0

/-- `series.max()` with NA skipped; `none` (NaN) when no value remains. -/
def seriesMax (s : List (Option ℚ)) : Option ℚ :=
  s.foldl (fun acc o =>
    match o, acc with
    | some q, some m => some (max m q)
    | some q, none => some q
    | none, acc => acc) none

/-- `series.min()` with NA skipped; `none` (NaN) when no value remains. -/
def seriesMin (s : List (Option ℚ)) : Option ℚ :=
  s.foldl (fun acc o =>
    match o, acc with
    | some q, some m => some (min m q)
    | some q, none => some q
    | none, acc => acc) none

/-- `series.mean()`: skipna sum over skipna count; NaN on an all-missing
series. -/
def seriesMean (s : List (Option ℚ)) : Option ℚ :=
  if seriesCount s = 0 then none else some (seriesSum s / seriesCount s)

/-- `series.median()`: drop NA, sort, middle element, or the average of the
two middle elements for an even count; NaN on an all-missing series. -/
def seriesMedian (s : List (Option ℚ)) : Option ℚ :=
  let xs := List.insertionSort (· ≤ ·) (s.filterMap id)
  let n := xs.length
  if n = 0 then none
  else if n % 2 = 1 then some (xs.getD (n / 2) 0)
  else some ((xs.getD (n / 2 - 1) 0 + xs.getD (n / 2) 0) / 2)

/-- The square of `series.std()` (sample variance, `ddof=1`); `none` stands
for NaN, which pandas returns on fewer than two values. -/
def seriesVar (s : List (Option ℚ)) : Option ℚ :=
  let n := seriesCount s
  if n < 2 then none
  else
    some ((((s.filterMap id).map (fun x => (x - seriesSum s / n) ^ 2)).sum) / (n - 1))

/-- Python `int()` on a (float) value: truncation toward zero. -/
def pyInt (q : ℚ) : ℤ := q.num.tdiv q.den

/-! ## `analyze_subject` (lines 102–185)

The function is modelled as `Option`-valued: `none` is an uncaught Python
exception (the explicit `KeyError`, the `IndexError` of `split()[0]` on a
wordless column name, or the `KeyError` of `df.loc` when `Name`/`Roll
Number` are absent). -/

/-- `pd.to_numeric(column, errors="coerce")` on one cell, restricted to the
integer literals this program's data can contain: other strings coerce to
NaN. -/
def pyToNumeric (c : Cell) : Option ℚ :=
  match c with
  | Cell.NA => none
  | Cell.num q => some q
  | Cell.str s =>
    if s.toList ≠ [] ∧ s.toList.all Char.isDigit
    then some ((natOfDigits s.toList : ℕ) : ℚ) else none

/-- The numeric view of a column (line 119). -/
def marksSeries (df : DataFrame) (c : String) : List (Option ℚ) :=
  df.rows.map (fun r => pyToNumeric (getCell r c))

/-- Lines 111–117: infer the grade column when none is supplied.  The outer
`Option` is the `IndexError` of `split()[0]` when the subject name has no
word; the inner `Option` is `candidates[0] if candidates else None`. -/
def inferGradeCol (df : DataFrame) (subject_col : String) : Option (Option String) :=
  match firstWord (pyLower subject_col) with
  | none => none
  | some w =>
    some ((df.cols.filter (fun c =>
      strStartsWith (pyLower c) w && strContains (pyLower c) "grade")).head?)

/-- Line 110: use the supplied grade column, else infer it. -/
def resolveGradeCol (df : DataFrame) (subject_col : String)
    (subject_grade_col : Option String) : Option (Option String) :=
  match subject_grade_col with
  | some g => some (some g)
  | none => inferGradeCol df subject_col

/-- `df.loc[:, sel]`: the sub-frame of the selected columns, `KeyError`
(modelled `none`) when a label is missing. -/
def selectTable (df : DataFrame) (sel : List String) : Option DataFrame :=
  if sel.all (fun c => df.cols.contains c) then
    some { cols := sel,
           rows := df.rows.map (fun r => sel.map (fun c => (c, getCell r c))) }
  else none

/-- Descending comparison on cells as `sort_values(ascending=False)` orders a
numeric column: larger values first, NaN last (`na_position="last"`); a
string cell (which cannot occur in the numeric columns this program sorts) is
ordered like NaN. -/
def cellDescLe (a b : Cell) : Bool :=
  match cellNum b with
  | none => true
  | some qb =>
    match cellNum a with
    | none => false
    | some qa => qb ≤ qa

/-- Row order induced by a column under the descending sort. -/
def rowDescRel (c : String) (r1 r2 : Row) : Prop :=
  cellDescLe (getCell r1 c) (getCell r2 c) = true

instance rowDescRelDec (c : String) : DecidableRel (rowDescRel c) := by
  intro a b
  unfold rowDescRel
  infer_instance

/-- `df.sort_values(by=c, ascending=False)` on the rows. -/
def sortDescBy (c : String) (rows : List Row) : List Row :=
  List.insertionSort (rowDescRel c) rows


/-- The descending sort order is total (needed for `insertionSort`
correctness). -/
instance rowDescRelTotal (c : String) : IsTotal Row (rowDescRel c) :=
  ⟨fun a b => by
    unfold rowDescRel cellDescLe
    cases ha : cellNum (getCell a c) <;> cases hb : cellNum (getCell b c) <;> simp
    exact le_total _ _⟩

/-- The descending sort order is transitive. -/
instance rowDescRelTrans (c : String) : IsTrans Row (rowDescRel c) :=
  ⟨fun a b d h1 h2 => by
    unfold rowDescRel cellDescLe at h1 h2 ⊢
    cases hd : cellNum (getCell d c) with
    | none => simp
    | some qd =>
      rw [hd] at h2
      cases hb : cellNum (getCell b c) with
      | none => rw [hb] at h2; simp at h2
      | some qb =>
        rw [hb] at h2
        rw [hb] at h1
        cases ha : cellNum (getCell a c) with
        | none => rw [ha] at h1; simp at h1
        | some qa =>
          rw [ha] at h1
          simp at h1 h2 ⊢
          exact le_trans h2 h1⟩

/-- `value_counts().sort_index()`: occurrence counts of the non-missing
values, listed in index order. -/
def cellLe (a b : Cell) : Bool :=
  match a, b with
  | Cell.num x, Cell.num y => x ≤ y
  | Cell.str x, Cell.str y => x ≤ y
  | Cell.num _, Cell.str _ => true
  | Cell.str _, Cell.num _ => false
  | Cell.NA, _ => true
  | _, Cell.NA => false

def valueCounts (cells : List Cell) : List (Cell × ℕ) :=
  List.insertionSort (fun p q => cellLe p.1 q.1 = true)
    (((cells.filter (fun v => v ≠ Cell.NA)).dedup).map (fun v => (v, cells.count v)))

instance valueCountsRelDec :
    DecidableRel (fun (p q : Cell × ℕ) => cellLe p.1 q.1 = true) := by
  intro a b
  infer_instance

/-- The stats dict of lines 135–144 on a numeric series: every aggregate is
`None` when the series is all-missing; `max`/`min` pass through Python
`int()`. -/
structure Stats : Type where
  mean : Option ℚ
  median : Option ℚ
  stdSq : Option ℚ
  max : Option ℤ
  min : Option ℤ
  count : ℕ
deriving DecidableEq, Repr

def seriesStats (s : List (Option ℚ)) : Stats :=
  let allNA := s.all (fun o => o.isNone)
  { mean := if allNA then none else seriesMean s,
    median := if allNA then none else seriesMedian s,
    stdSq := if allNA then none else seriesVar s,
    max := if allNA then none else (seriesMax s).map pyInt,
    min := if allNA then none else (seriesMin s).map pyInt,
    count := seriesCount s }

structure SubjectReport : Type where
  top10 : List Row
  bottom10 : List Row
  grade_counts : Option (List (Cell × ℕ))
  stats : Stats
  figs : List String
deriving DecidableEq, Repr

/-- Lines 121–125: the labels selected into `subject_table` (`None` is never
a column label; the membership test keeps a supplied grade column only when
present). -/
def selFor (df : DataFrame) (subject_col : String) (gcol : Option String) :
    List String :=
  ["Name", "Roll Number", subject_col] ++
    (match gcol with
     | some g => if df.cols.contains g then [g] else []
     | none => [])

/-- Lines 130–133: `grade_counts` — the value counts of the grade column when
one is set (Python truthiness: the empty string counts as unset). -/
def gradeCountsFor (df : DataFrame) (gcol : Option String) :
    Option (List (Cell × ℕ)) :=
  match gcol with
  | some g =>
    if g ≠ "" ∧ df.cols.contains g
    then some (valueCounts (df.rows.map (fun r => getCell r g)))
    else none
  | none => none

/-- Lines 147–182: the keys under which figures are stored, in insertion
order: `pie` when the grade counts are present and non-empty, always `hist`
and `box`, and `top_bottom` when the combined top/bottom table is
non-empty. -/
def figsFor (grade_counts : Option (List (Cell × ℕ))) (comb : List Row)
    (produce_figs : Bool) : List String :=
  if produce_figs then
    (match grade_counts with
     | some gc => if gc ≠ [] then ["pie"] else []
     | none => []) ++ ["hist", "box"] ++
    (if comb ≠ [] then ["top_bottom"] else [])
  else []

/-- The report built once the selection succeeded. -/
def mkSubjectReport (df : DataFrame) (subject_col : String)
    (gcol : Option String) (table : DataFrame) (produce_figs : Bool) :
    SubjectReport :=
  let sorted := sortDescBy subject_col table.rows
  let top10 := sorted.take 10
  let bottom10 := sorted.drop (sorted.length - 10)
  let grade_counts := gradeCountsFor df gcol
  { top10 := top10, bottom10 := bottom10, grade_counts := grade_counts,
    stats := seriesStats (marksSeries df subject_col),
    figs := figsFor grade_counts (top10 ++ bottom10) produce_figs }

/-- `analyze_subject` (lines 102–185).  Figures are recorded by the key under
which the code stores them, in insertion order. -/
def analyze_subject (df : DataFrame) (subject_col : String)
    (subject_grade_col : Option String) (produce_figs : Bool) :
    Option SubjectReport := do
  if df.cols.contains subject_col then
    let gcol ← resolveGradeCol df subject_col subject_grade_col
    let table ← selectTable df (selFor df subject_col gcol)
    some (mkSubjectReport df subject_col gcol table produce_figs)
  else none

/-! ## `analyze_total` (lines 188–232) -/

structure TotalReport : Type where
  top10 : List Row
  bottom10 : List Row
  stats : Stats
  figs : List String
deriving DecidableEq, Repr

/-- `analyze_total`: add the `Total` column when absent, rank by it, compute
the stats of the raw `Total` series.  `int(totals.max())` /
`int(totals.min())` raise (`none`) when the series has no numeric value. -/
def mkTotalReport (df : DataFrame) (table : DataFrame) (mx mn : ℚ)
    (produce_figs : Bool) : TotalReport :=
  let totals := df.rows.map (fun r => cellNum (getCell r "Total"))
  let sorted := sortDescBy "Total" table.rows
  { top10 := sorted.take 10,
    bottom10 := sorted.drop (sorted.length - 10),
    stats :=
      { mean := seriesMean totals, median := seriesMedian totals,
        stdSq := seriesVar totals, max := some (pyInt mx), min := some (pyInt mn),
        count := seriesCount totals },
    figs := if produce_figs then ["hist", "box", "top_bottom"] else [] }

def analyze_total (df0 : DataFrame) (produce_figs : Bool) : Option TotalReport := do
  let df := if df0.cols.contains "Total" then df0 else add_total_marks df0
  let totals := df.rows.map (fun r => cellNum (getCell r "Total"))
  let table ← selectTable df ["Name", "Roll Number", "Total"]
  let mx ← seriesMax totals
  let mn ← seriesMin totals
  some (mkTotalReport df table mx mn produce_figs)

/-! ## `save_full_report_excel_bytes` (lines 235–305)

The workbook is modelled as its sheets in creation order; the `Charts`
worksheet carries the list of inserted image names. -/

inductive Sheet : Type
  | table (nm : String) (rows : List Row)
  | counts (nm : String) (colName : String) (data : List (Cell × ℕ))
  | charts (nm : String) (images : List String)
deriving DecidableEq, Repr

def sheetName : Sheet → String
  | Sheet.table nm _ => nm
  | Sheet.counts nm _ _ => nm
  | Sheet.charts nm _ => nm

/-- Lines 254–258: the grade column passed to `analyze_subject` for a mark
column of the report loop. -/
def gradeColFor (df : DataFrame) (subject_col : String) : Option String :=
  if df.cols.contains (((subject_col.splitOn "_").headD "") ++ "_Grade")
  then some (subject_col.replace "Marks" "Grade") else none

/-- The per-subject portion of the report loop: the sheets it creates (in
creation order) and the chart images it inserts. -/
def subjectSheets (df : DataFrame) : List String → Option (List Sheet × List String)
  | [] => some ([], [])
  | s :: rest => do
    let rep ← analyze_subject df s (gradeColFor df s) true
    let (shs, imgs) ← subjectSheets df rest
    let gsheet :=
      match rep.grade_counts with
      | some gc =>
        [Sheet.counts (s ++ "_Grades")
          (match gradeColFor df s with
           | some g => if g ≠ "" then g else "Grade"
           | none => "Grade") gc]
      | none => []
    some ([Sheet.table (s ++ "_Top") rep.top10,
           Sheet.table (s ++ "_Bottom") rep.bottom10] ++ gsheet ++ shs,
          rep.figs.map (fun nm => s ++ "_" ++ nm ++ ".png") ++ imgs)

/-- `save_full_report_excel_bytes`: `All Data`, the `Charts` worksheet with
every inserted image, the per-subject sheets (mark columns other than
`Total`), then `Total_Top` / `Total_Bottom`. -/
def save_full_report_excel_bytes (df0 : DataFrame) : Option (List Sheet) := do
  let df := add_total_marks df0
  let subjects := (get_subject_mark_cols df).filter (fun c => c ≠ "Total")
  let (shs, imgs) ← subjectSheets df subjects
  let totalRep ← analyze_total df true
  let totalImgs := totalRep.figs.map (fun nm => "Total_" ++ nm ++ ".png")
  some ([Sheet.table "All Data" df.rows,
         Sheet.charts "Charts" (imgs ++ totalImgs)] ++ shs ++
        [Sheet.table "Total_Top" totalRep.top10,
         Sheet.table "Total_Bottom" totalRep.bottom10])

/-! ## Specification-side definitions

These render the *spec's* wording, to be compared with the embedded code. -/

/-- Consecutive non-overlapping pairs of a list (line `2i` with line
`2i + 1`). -/
def chunk2 {α : Type} : List α → List (α × α)
  | a :: b :: r => (a, b) :: chunk2 r
  | _ => []

/-- The standard mean of a list of values. -/
def listMean (xs : List ℚ) : Option ℚ :=
  if xs.length = 0 then none else some (xs.sum / xs.length)

/-- The standard median of a list of values. -/
def listMedian (xs : List ℚ) : Option ℚ :=
  let s := List.insertionSort (· ≤ ·) xs
  let n := s.length
  if n = 0 then none
  else if n % 2 = 1 then some (s.getD (n / 2) 0)
  else some ((s.getD (n / 2 - 1) 0 + s.getD (n / 2) 0) / 2)

/-- The standard sample variance (the square of the standard deviation),
undefined below two values. -/
def sampleVar (xs : List ℚ) : Option ℚ :=
  if xs.length < 2 then none
  else some (((xs.map (fun x => (x - xs.sum / xs.length) ^ 2)).sum) / (xs.length - 1))

/-! ## Concrete inputs used by witnesses and counterexamples -/

/-- Two well-formed student records with a blank line between them. -/
def exLines : List (List Char) :=
  ["1001 M John Sharma 041 042 043 044 045".toList,
   "085 A2 071 B1 060 B2 093 A1 056 C1".toList,
   "".toList,
   "1002 F Mary Rao 041 042 043 044 045".toList,
   "070 B1 090 A2 055 C1 088 B1 077 B1".toList]

def exDf : DataFrame := parse_student_data_from_lines exLines

/-- A record whose marks line carries six (marks, grade) token pairs. -/
def ex6Lines : List (List Char) :=
  ["1001 M John Sharma 041".toList,
   "085 A2 071 B1 060 B2 093 A1 056 C1 042 B1".toList]

/-- A frame with a single fractional mark. -/
def exDfHalf : DataFrame :=
  { cols := ["Name", "Roll Number", "S"],
    rows := [[("Name", Cell.str "A"), ("Roll Number", Cell.str "1"),
              ("S", Cell.num (5 / 2))]] }

/-- A frame whose only column has the empty string as its name. -/
def exDfEmptyCol : DataFrame := { cols := [""], rows := [] }

/-- The columns of a table all of whose records carried exactly five
(marks, grade) pairs. -/
def fiveSubjectCols : List String :=
  ["Roll Number", "Name", "Gender",
   "Subject1_Marks", "Subject1_Grade", "Subject2_Marks", "Subject2_Grade",
   "Subject3_Marks", "Subject3_Grade", "Subject4_Marks", "Subject4_Grade",
   "Subject5_Marks", "Subject5_Grade"]

/-! ## Row and cell lemmas -/

theorem getCell_setCell_same (r : Row) (c : String) (v : Cell) :
    getCell (setCell r c v) c = v := by
  induction r with
  | nil => simp [setCell, getCell]
  | cons kv rest ih =>
    obtain ⟨k, w⟩ := kv
    by_cases h : k = c
    · simp [setCell, getCell, h]
    · simp [setCell, getCell, h, ih]

theorem getCell_setCell_ne (r : Row) (c c' : String) (v : Cell) (h : c' ≠ c) :
    getCell (setCell r c v) c' = getCell r c' := by
  have hcc : c ≠ c' := Ne.symm h
  induction r with
  | nil => simp [setCell, getCell, hcc]
  | cons kv rest ih =>
    obtain ⟨k, w⟩ := kv
    by_cases hk : k = c
    · subst hk
      simp [setCell, getCell, hcc]
    · simp only [setCell, if_neg hk]
      by_cases hk' : k = c' <;> simp [getCell, hk', ih]

/-- Summing with missing entries skipped equals summing with missing entries
as zero. -/
theorem sum_filterMap_eq_sum_map_getD (l : List String) (f : String → Option ℚ) :
    (l.filterMap f).sum = (l.map (fun a => (f a).getD 0)).sum := by
  induction l with
  | nil => rfl
  | cons a t ih =>
    cases hf : f a <;> simp [List.filterMap_cons, hf, ih]

/-! ## Lemmas on list indexing -/

theorem getD_map_lt {α β : Type} (l : List α) (f : α → β) (i : ℕ) (d : α)
    (d' : β) (h : i < l.length) : (l.map f).getD i d' = f (l.getD i d) := by
  rw [List.getD_eq_getElem l d h,
    List.getD_eq_getElem (l.map f) d' (by simpa using h)]
  simp

/-! ## Claim C9 -/

/-- **C9.** `add_total_marks` returns a frame whose `Total` column is, per
row, the sum of the row's subject mark columns (`get_subject_mark_cols`)
with missing marks counted as zero — in particular a student with no parsed
marks gets `Total = 0`; every other column is left with the input's values,
and the input frame itself is unchanged (the function copies, and the
embedding is pure). -/
theorem c9_add_total_marks : ∀ df : DataFrame,
    (∀ i, i < df.rows.length →
      getCell ((add_total_marks df).rows.getD i []) "Total"
        = Cell.num (((get_subject_mark_cols df).map
            (fun c => (cellNum (getCell (df.rows.getD i []) c)).getD 0)).sum))
    ∧ (∀ i c, c ≠ "Total" →
        getCell ((add_total_marks df).rows.getD i []) c
          = getCell (df.rows.getD i []) c)
    ∧ (∀ c, c ≠ "Total" → (c ∈ (add_total_marks df).cols ↔ c ∈ df.cols))
    ∧ (add_total_marks df).rows.length = df.rows.length := by
  intro df
  refine ⟨?_, ?_, ?_, ?_⟩
  · intro i hi
    have hrows : (add_total_marks df).rows
        = df.rows.map (fun r =>
            setCell r "Total" (Cell.num (rowTotal (get_subject_mark_cols df) r))) := rfl
    rw [hrows, getD_map_lt df.rows _ i [] [] hi, getCell_setCell_same]
    rw [rowTotal, sum_filterMap_eq_sum_map_getD]
  · intro i c hc
    have hrows : (add_total_marks df).rows
        = df.rows.map (fun r =>
            setCell r "Total" (Cell.num (rowTotal (get_subject_mark_cols df) r))) := rfl
    by_cases hi : i < df.rows.length
    · rw [hrows, getD_map_lt df.rows _ i [] [] hi, getCell_setCell_ne _ _ _ _ hc]
    · rw [hrows, List.getD_eq_default, List.getD_eq_default]
      · exact Nat.le_of_not_lt hi
      · simpa using Nat.le_of_not_lt hi
  · intro c hc
    show c ∈ (if df.cols.contains "Total" then df.cols else df.cols ++ ["Total"]) ↔ _
    by_cases h : "Total" ∈ df.cols <;> simp [h, hc]
  · show (df.rows.map _).length = df.rows.length
    simp

/-- Witness for C9 at the parsed example frame. -/
theorem c9_add_total_marks_witness :
    getCell ((add_total_marks exDf).rows.getD 0 []) "Total"
      = Cell.num (((get_subject_mark_cols exDf).map
          (fun c => (cellNum (getCell (exDf.rows.getD 0 []) c)).getD 0)).sum) :=
  (c9_add_total_marks exDf).1 0 (by decide)

/-! ## The pairing loop equals the chunked description -/

theorem head_filter_eq_find {α : Type} (l : List α) (p : α → Bool) :
    (l.filter p).head? = l.find? p := by
  induction l with
  | nil => rfl
  | cons a t ih => by_cases h : p a <;> simp [List.filter_cons, List.find?, h, ih]

theorem range_filter_even_step (m : ℕ) :
    (List.range (m + 2)).filter (fun i => i % 2 == 0)
      = 0 :: ((List.range m).filter (fun i => i % 2 == 0)).map (· + 2) := by
  rw [List.range_succ_eq_map, List.range_succ_eq_map]
  simp only [List.filter_cons, List.map_cons]
  norm_num
  have hp : ((fun i => i % 2 == 0) ∘ (Nat.succ ∘ Nat.succ)) = (fun i => i % 2 == 0) := by
    funext i
    show ((i + 1 + 1) % 2 == 0) = (i % 2 == 0)
    have h : (i + 1 + 1) % 2 = i % 2 := by omega
    rw [h]
  have hm : (Nat.succ ∘ Nat.succ) = (fun x : ℕ => x + 2) := by
    funext i
    show i + 1 + 1 = i + 2
    omega
  rw [List.filter_map, hp, hm]

theorem pyRange2_step (n : ℕ) :
    pyRange2 (n + 2) = 0 :: (pyRange2 n).map (· + 2) := by
  cases n with
  | zero => rfl
  | succ m =>
    show (List.range (m + 2)).filter (fun i => i % 2 == 0) = _
    rw [range_filter_even_step]
    rfl

theorem mem_pyRange2 {n i : ℕ} (h : i ∈ pyRange2 n) : i + 1 < n := by
  have : i ∈ List.range (n - 1) := List.mem_of_mem_filter h
  have := List.mem_range.mp this
  omega

theorem parseRowsNorm_eq_chunk : ∀ ls : List (List Char),
    parseRowsNorm ls = (chunk2 ls).filterMap (fun p => rowOfPair p.1 p.2)
  | [] => rfl
  | [_] => rfl
  | a :: b :: r => by
    have ih := parseRowsNorm_eq_chunk r
    show (pyRange2 (r.length + 1 + 1)).filterMap
        (fun i => rowOfPair ((a :: b :: r).getD i []) ((a :: b :: r).getD (i + 1) [])) = _
    rw [pyRange2_step, List.filterMap_cons, List.filterMap_map]
    have hcomp :
        ((fun i => rowOfPair ((a :: b :: r).getD i []) ((a :: b :: r).getD (i + 1) []))
            ∘ (· + 2))
          = fun i => rowOfPair (r.getD i []) (r.getD (i + 1) []) := by
      funext i
      simp [Function.comp]
    rw [hcomp]
    show _ = (chunk2 (a :: b :: r)).filterMap (fun p => rowOfPair p.1 p.2)
    rw [show chunk2 (a :: b :: r) = (a, b) :: chunk2 r from rfl, List.filterMap_cons]
    have ih2 : (pyRange2 r.length).filterMap
        (fun i => rowOfPair (r.getD i []) (r.getD (i + 1) []))
          = (chunk2 r).filterMap (fun p => rowOfPair p.1 p.2) := ih
    cases hab : rowOfPair a b <;> simp [hab, ← List.getD_eq_getElem?_getD, ih2]

/-- Appending one line to an even-length list adds no pair. -/
theorem chunk2_append_single_even {α : Type} :
    ∀ (ls : List α) (x : α), ls.length % 2 = 0 →
      chunk2 (ls ++ [x]) = chunk2 ls
  | [], _, _ => rfl
  | [_], _, h => by simp at h
  | a :: b :: r, x, h => by
    have hr : r.length % 2 = 0 := by
      have h2 := h
      simp at h2
      omega
    show (a, b) :: chunk2 (r ++ [x]) = (a, b) :: chunk2 r
    rw [chunk2_append_single_even r x hr]

theorem parseRowsNorm_short (ls : List (List Char)) (h : ls.length < 2) :
    parseRowsNorm ls = [] := by
  match ls, h with
  | [], _ => rfl
  | [_], _ => rfl

/-! ## Claim C10 -/

/-- **C10.** The pairing loop never indexes past the end of the filtered line
list: every loop index `i` (an even number below `len - 1`) satisfies
`i + 1 < len`; on an odd number of non-empty lines the final line is ignored
(dropping it does not change the parse); and fewer than two non-empty lines
parse to an empty table. -/
theorem c10_loop_bounds :
    (∀ n i, i ∈ pyRange2 n → i + 1 < n)
    ∧ (∀ ls : List (List Char), ls.length % 2 = 1 →
        parseRowsNorm ls = parseRowsNorm ls.dropLast)
    ∧ (∀ lines : List (List Char), (normalizeLines lines).length < 2 →
        (parse_student_data_from_lines lines).rows = []) := by
  refine ⟨fun _ _ h => mem_pyRange2 h, ?_, ?_⟩
  · intro ls hodd
    have hne : ls ≠ [] := by
      intro h
      rw [h] at hodd
      simp at hodd
    have hsplit := List.dropLast_append_getLast hne
    have hlen : ls.dropLast.length % 2 = 0 := by
      have := List.length_dropLast ls
      have hl : 1 ≤ ls.length := List.length_pos.mpr hne
      omega
    rw [parseRowsNorm_eq_chunk, parseRowsNorm_eq_chunk]
    rw [← hsplit, chunk2_append_single_even _ _ hlen]
    simp
  · intro lines h
    show parseRowsNorm (normalizeLines lines) = []
    exact parseRowsNorm_short _ h

/-- Witness for C10 at concrete inputs: the loop bound at `n = 5`, a
three-line (odd) input, and a one-line input. -/
theorem c10_loop_bounds_witness :
    (0 + 1 < 5)
    ∧ parseRowsNorm ["1 M A 041".toList, "85 A1".toList, "junk".toList]
        = parseRowsNorm ["1 M A 041".toList, "85 A1".toList]
    ∧ (parse_student_data_from_lines ["1001 M John 041".toList]).rows = [] := by
  refine ⟨c10_loop_bounds.1 5 0 (by decide), ?_, c10_loop_bounds.2.2 _ (by decide)⟩
  have h := c10_loop_bounds.2.1 ["1 M A 041".toList, "85 A1".toList, "junk".toList]
    (by decide)
  simpa using h

/-! ## Row keys of a parsed record -/

theorem pyStrip_nil : pyStrip [] = [] := rfl

theorem normalizeLines_eq (lines : List (List Char)) :
    normalizeLines lines = (lines.filter (fun ln => !(pyStrip ln).isEmpty)).map pyStrip := by
  induction lines with
  | nil => rfl
  | cons ln rest ih =>
    by_cases h : pyStrip ln = []
    · have hcond : ¬(ln ≠ [] ∧ pyStrip ln ≠ []) := by simp [h]
      simp only [normalizeLines] at ih ⊢
      simp [List.filterMap_cons, List.filter_cons, h, hcond, ih]
    · have hne : ln ≠ [] := by
        intro he
        exact h (he ▸ pyStrip_nil)
      simp only [normalizeLines] at ih ⊢
      simp [List.filterMap_cons, List.filter_cons, h, hne, ih]

theorem enumFrom_flatMap_subjKeys :
    ∀ (mgs : List (List Char × List Char)) (i : ℕ),
      (List.enumFrom i mgs).flatMap
          (fun kmg => [subjKey (kmg.1 + 1) "_Marks", subjKey (kmg.1 + 1) "_Grade"])
        = (List.range' i mgs.length).flatMap
            (fun k => [subjKey (k + 1) "_Marks", subjKey (k + 1) "_Grade"])
  | [], _ => rfl
  | x :: xs, i => by
    have ih := enumFrom_flatMap_subjKeys xs (i + 1)
    simp only [List.enumFrom, List.length_cons, List.range'_succ, List.flatMap_cons]
    rw [ih]

theorem rowKeys_rowOfPair (l1 l2 : List Char) (row : Row)
    (h : rowOfPair l1 l2 = some row) :
    rowKeys row = ["Roll Number", "Name", "Gender"]
      ++ (List.range (findallMG l2).length).flatMap
          (fun k => [subjKey (k + 1) "_Marks", subjKey (k + 1) "_Grade"]) := by
  unfold rowOfPair at h
  cases hm : matchLine1 l1 with
  | none => rw [hm] at h; exact absurd h (by simp)
  | some t =>
    obtain ⟨roll, g, name⟩ := t
    rw [hm] at h
    simp only [Option.some_inj] at h
    subst h
    rw [rowKeys, List.map_append]
    congr 1
    rw [List.map_flatMap]
    have hshape : (fun (kmg : ℕ × List Char × List Char) =>
        (([(subjKey (kmg.1 + 1) "_Marks", marksCell kmg.2.1),
           (subjKey (kmg.1 + 1) "_Grade", Cell.str (String.mk kmg.2.2))]).map Prod.fst))
        = fun kmg => [subjKey (kmg.1 + 1) "_Marks", subjKey (kmg.1 + 1) "_Grade"] := by
      funext kmg
      rfl
    rw [hshape]
    have henum : (findallMG l2).enum = List.enumFrom 0 (findallMG l2) := rfl
    rw [henum, enumFrom_flatMap_subjKeys, ← List.range_eq_range']

/-! ## Claim C1 -/

/-- **C1.** `parse_student_data_from_lines` first discards empty and
whitespace-only lines (stripping the rest), then processes the remaining
lines in consecutive non-overlapping pairs; a pair yields a row exactly when
its identity line matches, and the row's fields are `Roll Number`, `Name`,
`Gender` followed by one `Subject{idx}_Marks` / `Subject{idx}_Grade` pair for
each (marks, grade) token pair found in the second line; the table is the
rows of all matching pairs in input order. -/
theorem c1_parse_pairs_rows :
    (∀ lines, (parse_student_data_from_lines lines).rows
        = (chunk2 (normalizeLines lines)).filterMap (fun p => rowOfPair p.1 p.2))
    ∧ (∀ lines, normalizeLines lines
        = (lines.filter (fun ln => !(pyStrip ln).isEmpty)).map pyStrip)
    ∧ (∀ l1 l2, (rowOfPair l1 l2).isSome ↔ (matchLine1 l1).isSome)
    ∧ (∀ l1 l2 row, rowOfPair l1 l2 = some row →
        rowKeys row = ["Roll Number", "Name", "Gender"]
          ++ (List.range (findallMG l2).length).flatMap
              (fun k => [subjKey (k + 1) "_Marks", subjKey (k + 1) "_Grade"])) := by
  refine ⟨?_, normalizeLines_eq, ?_, rowKeys_rowOfPair⟩
  · intro lines
    exact parseRowsNorm_eq_chunk (normalizeLines lines)
  · intro l1 l2
    unfold rowOfPair
    cases hm : matchLine1 l1 with
    | none => simp
    | some t => obtain ⟨roll, g, name⟩ := t; simp

/-- Witness for C1: the key list of a concrete parsed record. -/
theorem c1_parse_pairs_rows_witness :
    rowKeys ((rowOfPair "1001 M John Sharma 041 042 043 044 045".toList
        "085 A2 071 B1 060 B2 093 A1 056 C1".toList).getD [])
      = ["Roll Number", "Name", "Gender"]
        ++ (List.range (findallMG "085 A2 071 B1 060 B2 093 A1 056 C1".toList).length).flatMap
            (fun k => [subjKey (k + 1) "_Marks", subjKey (k + 1) "_Grade"]) :=
  c1_parse_pairs_rows.2.2.2 "1001 M John Sharma 041 042 043 044 045".toList
    "085 A2 071 B1 060 B2 093 A1 056 C1".toList
    ((rowOfPair "1001 M John Sharma 041 042 043 044 045".toList
        "085 A2 071 B1 060 B2 093 A1 056 C1".toList).getD []) (by decide)

/-! ## Claim C2 -/

/-- **C2.** Parsing is best-effort: a pair whose identity line matches
neither the strict nor the fallback pattern produces no row and the loop
continues with the next pair; every pair either yields exactly one row or is
skipped, and the parser is a total function. -/
theorem c2_skip_malformed :
    (∀ l1 l2, matchStrict l1 = none → matchFallback l1 = none →
        rowOfPair l1 l2 = none)
    ∧ (∀ (l1 l2 : List Char) (ls : List (List Char)), matchLine1 l1 = none →
        parseRowsNorm (l1 :: l2 :: ls) = parseRowsNorm ls)
    ∧ (∀ l1 l2, (∃ row, rowOfPair l1 l2 = some row) ∨ rowOfPair l1 l2 = none) := by
  refine ⟨?_, ?_, ?_⟩
  · intro l1 l2 h1 h2
    simp [rowOfPair, matchLine1, h1, h2]
  · intro l1 l2 ls h
    rw [parseRowsNorm_eq_chunk, parseRowsNorm_eq_chunk]
    rw [show chunk2 (l1 :: l2 :: ls) = (l1, l2) :: chunk2 ls from rfl, List.filterMap_cons]
    simp [rowOfPair, h]
  · intro l1 l2
    cases h : rowOfPair l1 l2 with
    | none => exact Or.inr rfl
    | some row => exact Or.inl ⟨row, rfl⟩

/-- Witness for C2: a malformed identity line is skipped and parsing
continues. -/
theorem c2_skip_malformed_witness :
    rowOfPair "garbage".toList "085 A2".toList = none
    ∧ parseRowsNorm ["garbage".toList, "085 A2".toList,
        "1 M A 041".toList, "085 A2".toList]
      = parseRowsNorm ["1 M A 041".toList, "085 A2".toList] :=
  ⟨c2_skip_malformed.1 _ _ (by decide) (by decide),
   c2_skip_malformed.2.1 _ _ _ (by decide)⟩

/-! ## Uniform rows determine the column list -/

theorem dfColumns_step_mem (K : List String) (r : Row) (h : rowKeys r = K) :
    K ++ (rowKeys r).filter (fun k => !K.contains k) = K := by
  rw [h]
  have : K.filter (fun k => !K.contains k) = [] := by
    apply List.filter_eq_nil_iff.mpr
    intro k hk
    simp [hk]
  rw [this, List.append_nil]

theorem dfColumns_uniform_aux (K : List String) :
    ∀ rows : List Row, (∀ r ∈ rows, rowKeys r = K) →
      rows.foldl (fun acc r => acc ++ (rowKeys r).filter (fun k => !acc.contains k)) K = K
  | [], _ => rfl
  | r :: rest, h => by
    have hr := h r (List.mem_cons_self r rest)
    show List.foldl _ (K ++ (rowKeys r).filter (fun k => !K.contains k)) rest = K
    rw [dfColumns_step_mem K r hr]
    exact dfColumns_uniform_aux K rest (fun r2 h2 => h r2 (List.mem_cons_of_mem r h2))

theorem dfColumns_uniform (rows : List Row) (K : List String)
    (h : ∀ r ∈ rows, rowKeys r = K) (hne : rows ≠ []) : dfColumns rows = K := by
  match rows, hne with
  | r :: rest, _ =>
    have hr := h r (List.mem_cons_self r rest)
    show List.foldl _ ([] ++ (rowKeys r).filter (fun k => !([] : List String).contains k)) rest = K
    have hhead : [] ++ (rowKeys r).filter (fun k => !([] : List String).contains k) = K := by
      rw [hr]
      simp
    rw [hhead]
    exact dfColumns_uniform_aux K rest (fun r2 h2 => h r2 (List.mem_cons_of_mem r h2))

/-! ## Claim C3 -/

/-- **C3 counterexample.** The parser is *not* hard-limited to five subjects:
a marks line carrying six (marks, grade) token pairs produces a
`Subject6_Marks` column. -/
theorem c3_counterexample_six_subjects :
    (parse_student_data_from_lines ex6Lines).cols.contains "Subject6_Marks" = true := by
  decide

/-- **C3 (amended).** The five-subject format is enforced by the data, not
the parser: when every paired record's marks line carries exactly five
(marks, grade) token pairs and at least one record parses, the table's
columns are exactly `Roll Number`, `Name`, `Gender` and
`Subject1..Subject5` mark/grade columns, and the default mapping of
`map_subjects_to_names` renames exactly those five to
`ENG, LANG II, MATH, SCI, SOC` (with their grade columns). -/
theorem c3_five_subjects_amended :
    ∀ lines, (∀ p ∈ chunk2 (normalizeLines lines), (findallMG p.2).length = 5) →
      (parse_student_data_from_lines lines).rows ≠ [] →
      (parse_student_data_from_lines lines).cols = fiveSubjectCols
      ∧ (map_subjects_to_names (parse_student_data_from_lines lines)).cols
        = ["Roll Number", "Name", "Gender", "ENG", "ENG GRADE", "LANG II",
           "LANG II GRADE", "MATH", "MATH GRADE", "SCI", "SCI GRADE",
           "SOC", "SOC GRADE"] := by
  intro lines h5 hne
  have hrows : (parse_student_data_from_lines lines).rows
      = (chunk2 (normalizeLines lines)).filterMap (fun p => rowOfPair p.1 p.2) :=
    parseRowsNorm_eq_chunk (normalizeLines lines)
  have hkeys : ∀ r ∈ (parse_student_data_from_lines lines).rows, rowKeys r = fiveSubjectCols := by
    intro r hr
    rw [hrows] at hr
    obtain ⟨p, hp, hrow⟩ := List.mem_filterMap.mp hr
    have hk := rowKeys_rowOfPair p.1 p.2 r hrow
    rw [h5 p hp] at hk
    rw [hk]
    decide
  have hcols : (parse_student_data_from_lines lines).cols = fiveSubjectCols := by
    show dfColumns (parse_student_data_from_lines lines).rows = fiveSubjectCols
    exact dfColumns_uniform _ _ hkeys hne
  refine ⟨hcols, ?_⟩
  show (parse_student_data_from_lines lines).cols.map (renameLabel defaultMapping) = _
  rw [hcols]
  decide

/-- Witness for the amended C3 at the concrete two-student input. -/
theorem c3_five_subjects_amended_witness :
    (parse_student_data_from_lines exLines).cols = fiveSubjectCols
    ∧ (map_subjects_to_names (parse_student_data_from_lines exLines)).cols
      = ["Roll Number", "Name", "Gender", "ENG", "ENG GRADE", "LANG II",
         "LANG II GRADE", "MATH", "MATH GRADE", "SCI", "SCI GRADE",
         "SOC", "SOC GRADE"] :=
  c3_five_subjects_amended exLines (by decide) (by decide)

/-! ## Series aggregations versus list aggregations -/

theorem seriesSum_aux : ∀ (s : List (Option ℚ)) (a : ℚ),
    s.foldl (fun acc o => match o with | some q => acc + q | none => acc) a
      = a + (s.filterMap id).sum
  | [], a => by simp
  | none :: t, a => by
    simpa [List.filterMap_cons] using seriesSum_aux t a
  | some q :: t, a => by
    simp only [List.foldl_cons, List.filterMap_cons, id, List.sum_cons]
    rw [seriesSum_aux t (a + q)]
    ring

theorem seriesSum_eq (s : List (Option ℚ)) : seriesSum s = (s.filterMap id).sum := by
  simpa using seriesSum_aux s 0

theorem seriesCount_aux : ∀ (s : List (Option ℚ)) (a : ℕ),
    s.foldl (fun acc o => match o with | some _ => acc + 1 | none => acc) a
      = a + (s.filterMap id).length
  | [], a => by simp
  | none :: t, a => by
    simpa [List.filterMap_cons] using seriesCount_aux t a
  | some q :: t, a => by
    simp only [List.foldl_cons, List.filterMap_cons, id, List.length_cons]
    rw [seriesCount_aux t (a + 1)]
    omega

theorem seriesCount_eq (s : List (Option ℚ)) :
    seriesCount s = (s.filterMap id).length := by
  simpa using seriesCount_aux s 0

theorem seriesMax_aux : ∀ (s : List (Option ℚ)) (m : ℚ),
    s.foldl (fun acc o =>
      match o, acc with
      | some q, some m => some (max m q)
      | some q, none => some q
      | none, acc => acc) (some m)
      = some ((s.filterMap id).foldl max m)
  | [], m => by simp
  | none :: t, m => by
    simpa [List.filterMap_cons] using seriesMax_aux t m
  | some q :: t, m => by
    simpa [List.filterMap_cons] using seriesMax_aux t (max m q)

theorem seriesMax_eq : ∀ s : List (Option ℚ), seriesMax s = (s.filterMap id).max?
  | [] => rfl
  | none :: t => by
    show seriesMax t = _
    simpa [List.filterMap_cons] using seriesMax_eq t
  | some q :: t => by
    show List.foldl _ (some q) t = _
    rw [seriesMax_aux t q]
    simp [List.filterMap_cons, List.max?]

theorem seriesMin_aux : ∀ (s : List (Option ℚ)) (m : ℚ),
    s.foldl (fun acc o =>
      match o, acc with
      | some q, some m => some (min m q)
      | some q, none => some q
      | none, acc => acc) (some m)
      = some ((s.filterMap id).foldl min m)
  | [], m => by simp
  | none :: t, m => by
    simpa [List.filterMap_cons] using seriesMin_aux t m
  | some q :: t, m => by
    simpa [List.filterMap_cons] using seriesMin_aux t (min m q)

theorem seriesMin_eq : ∀ s : List (Option ℚ), seriesMin s = (s.filterMap id).min?
  | [] => rfl
  | none :: t => by
    show seriesMin t = _
    simpa [List.filterMap_cons] using seriesMin_eq t
  | some q :: t => by
    show List.foldl _ (some q) t = _
    rw [seriesMin_aux t q]
    simp [List.filterMap_cons, List.min?]

theorem allNA_iff (s : List (Option ℚ)) :
    (s.all fun o => o.isNone) = true ↔ s.filterMap id = [] := by
  induction s with
  | nil => simp
  | cons o t ih =>
    cases o <;> simp [List.filterMap_cons, ih]

/-! ## Inversion of `analyze_subject` and `analyze_total` -/

theorem analyze_subject_inv {df : DataFrame} {s : String} {g : Option String}
    {pf : Bool} {rep : SubjectReport} (h : analyze_subject df s g pf = some rep) :
    df.cols.contains s = true
    ∧ ∃ gcol table, resolveGradeCol df s g = some gcol
        ∧ selectTable df (selFor df s gcol) = some table
        ∧ rep = mkSubjectReport df s gcol table pf := by
  unfold analyze_subject at h
  split at h
  case isTrue hcond =>
    rw [show (Bind.bind : Option (Option String) → _ → Option SubjectReport) = Option.bind from rfl] at h
    obtain ⟨gcol, hg, h2⟩ := Option.bind_eq_some.mp h
    rw [show (Bind.bind : Option DataFrame → _ → Option SubjectReport) = Option.bind from rfl] at h2
    obtain ⟨table, ht, h3⟩ := Option.bind_eq_some.mp h2
    exact ⟨hcond, gcol, table, hg, ht, (Option.some.inj h3).symm⟩
  case isFalse hcond => simp at h

theorem analyze_total_inv {df0 : DataFrame} {pf : Bool} {rep : TotalReport}
    (h : analyze_total df0 pf = some rep) :
    ∃ table mx mn,
      selectTable (if df0.cols.contains "Total" then df0 else add_total_marks df0)
          ["Name", "Roll Number", "Total"] = some table
      ∧ seriesMax ((if df0.cols.contains "Total" then df0 else add_total_marks df0).rows.map
          (fun r => cellNum (getCell r "Total"))) = some mx
      ∧ seriesMin ((if df0.cols.contains "Total" then df0 else add_total_marks df0).rows.map
          (fun r => cellNum (getCell r "Total"))) = some mn
      ∧ rep = mkTotalReport (if df0.cols.contains "Total" then df0 else add_total_marks df0)
          table mx mn pf := by
  unfold analyze_total at h
  dsimp only at h
  rw [show (Bind.bind : Option DataFrame → _ → Option TotalReport) = Option.bind from rfl] at h
  obtain ⟨table, ht, h2⟩ := Option.bind_eq_some.mp h
  rw [show (Bind.bind : Option ℚ → _ → Option TotalReport) = Option.bind from rfl] at h2
  obtain ⟨mx, hmx, h3⟩ := Option.bind_eq_some.mp h2
  obtain ⟨mn, hmn, h4⟩ := Option.bind_eq_some.mp h3
  exact ⟨table, mx, mn, ht, hmx, hmn, (Option.some.inj h4).symm⟩

/-! ## The stats dict versus the standard aggregates -/

theorem seriesStats_spec (s : List (Option ℚ)) :
    ((s.filterMap id ≠ []) →
      (seriesStats s).mean = some ((s.filterMap id).sum / (s.filterMap id).length)
      ∧ (seriesStats s).median = listMedian (s.filterMap id)
      ∧ (seriesStats s).stdSq = sampleVar (s.filterMap id)
      ∧ (seriesStats s).max = ((s.filterMap id).max?).map pyInt
      ∧ (seriesStats s).min = ((s.filterMap id).min?).map pyInt
      ∧ (seriesStats s).count = (s.filterMap id).length)
    ∧ ((s.filterMap id = []) →
      (seriesStats s).mean = none ∧ (seriesStats s).median = none
      ∧ (seriesStats s).stdSq = none ∧ (seriesStats s).max = none
      ∧ (seriesStats s).min = none ∧ (seriesStats s).count = 0) := by
  constructor
  · intro hne
    have hall : (s.all fun o => o.isNone) = false := by
      cases hb : (s.all fun o => o.isNone) with
      | false => rfl
      | true => exact absurd ((allNA_iff s).mp hb) hne
    have hcount : seriesCount s ≠ 0 := by
      rw [seriesCount_eq]
      simpa using hne
    refine ⟨?_, ?_, ?_, ?_, ?_, ?_⟩
    · show (if (s.all fun o => o.isNone) then none else seriesMean s) = _
      rw [hall]
      have hlen : ¬((s.filterMap id).length = 0) := by
        simpa [List.length_eq_zero] using hne
      simp only [Bool.false_eq_true, if_false, seriesMean, seriesCount_eq,
        seriesSum_eq, if_neg hlen]
    · show (if (s.all fun o => o.isNone) then none else seriesMedian s) = _
      rw [hall]
      rfl
    · show (if (s.all fun o => o.isNone) then none else seriesVar s) = _
      rw [hall]
      simp only [Bool.false_eq_true, if_false, seriesVar, sampleVar,
        seriesCount_eq, seriesSum_eq]
    · show (if (s.all fun o => o.isNone) then none else (seriesMax s).map pyInt) = _
      rw [hall, seriesMax_eq]
      rfl
    · show (if (s.all fun o => o.isNone) then none else (seriesMin s).map pyInt) = _
      rw [hall, seriesMin_eq]
      rfl
    · show seriesCount s = _
      exact seriesCount_eq s
  · intro hemp
    have hall : (s.all fun o => o.isNone) = true := (allNA_iff s).mpr hemp
    refine ⟨?_, ?_, ?_, ?_, ?_, ?_⟩ <;>
      simp [seriesStats, hall, seriesCount_eq, hemp]

/-! ## Claim C5 -/

/-- **C5 counterexample.** `int(marks_series.max())` truncates: on a subject
column holding the single numeric mark `5/2`, the reported max is `2`, but
the standard maximum of the column's numeric marks is `5/2`. -/
theorem c5_counterexample_truncated_max :
    (analyze_subject exDfHalf "S" none true).map (fun rep => rep.stats.max)
        = some (some 2)
    ∧ ((marksSeries exDfHalf "S").filterMap id).max? = some (5 / 2)
    ∧ ((2 : ℚ) ≠ 5 / 2) := by
  refine ⟨by decide, by decide, by norm_num⟩

/-- **C5 (amended).** For every call of `analyze_subject` that returns, the
stats are the standard aggregates of the column's numeric marks with missing
values excluded — except that `max` and `min` pass through Python `int()`
and are therefore the *toward-zero truncations* of the standard maximum and
minimum (the identity on the integer marks this program parses); `count` is
the number of non-missing marks, and every aggregate is `None` when all
marks are missing.  (`stdSq` is the square of `std`; the standard deviation
is its square root on both sides.) -/
theorem c5_stats_amended :
    ∀ (df : DataFrame) (sc : String) (g : Option String) (pf : Bool)
      (rep : SubjectReport),
      analyze_subject df sc g pf = some rep →
      (((marksSeries df sc).filterMap id ≠ []) →
        rep.stats.mean = some (((marksSeries df sc).filterMap id).sum
            / ((marksSeries df sc).filterMap id).length)
        ∧ rep.stats.median = listMedian ((marksSeries df sc).filterMap id)
        ∧ rep.stats.stdSq = sampleVar ((marksSeries df sc).filterMap id)
        ∧ rep.stats.max = (((marksSeries df sc).filterMap id).max?).map pyInt
        ∧ rep.stats.min = (((marksSeries df sc).filterMap id).min?).map pyInt
        ∧ rep.stats.count = ((marksSeries df sc).filterMap id).length)
      ∧ (((marksSeries df sc).filterMap id = []) →
        rep.stats.mean = none ∧ rep.stats.median = none ∧ rep.stats.stdSq = none
        ∧ rep.stats.max = none ∧ rep.stats.min = none ∧ rep.stats.count = 0) := by
  intro df sc g pf rep h
  obtain ⟨-, gcol, table, -, -, hrep⟩ := analyze_subject_inv h
  have hstats : rep.stats = seriesStats (marksSeries df sc) := by
    rw [hrep]
    rfl
  rw [hstats]
  exact seriesStats_spec (marksSeries df sc)

/-- Witness for the amended C5 on a parsed subject column. -/
theorem c5_stats_amended_witness :
    ((analyze_subject exDf "Subject1_Marks" none true).getD
        ⟨[], [], none, ⟨none, none, none, none, none, 0⟩, []⟩).stats.count
      = ((marksSeries exDf "Subject1_Marks").filterMap id).length :=
  ((c5_stats_amended exDf "Subject1_Marks" none true
      ((analyze_subject exDf "Subject1_Marks" none true).getD
        ⟨[], [], none, ⟨none, none, none, none, none, 0⟩, []⟩)
      (by decide)).1 (by decide)).2.2.2.2.2

/-! ## Sortedness of the descending sort -/

theorem sortDescBy_perm (c : String) (rows : List Row) :
    (sortDescBy c rows).Perm rows :=
  List.perm_insertionSort (rowDescRel c) rows

theorem sortDescBy_sorted (c : String) (rows : List Row) :
    List.Sorted (rowDescRel c) (sortDescBy c rows) :=
  List.sorted_insertionSort (rowDescRel c) rows

/-! ## Claim C6 -/

/-- **C6.** Rankings: whenever `analyze_subject` returns, its `top10` is the
first 10 rows and its `bottom10` the last 10 rows of the selected student
table sorted in descending order of the subject column (NaN last); when the
table has at most 10 rows, each of them is the whole sorted table (hence
contains all rows, being a permutation of the table); and `analyze_total`
does the same for the `Total` column. -/
theorem c6_rankings :
    (∀ df sc g pf rep gcol table,
      analyze_subject df sc g pf = some rep →
      resolveGradeCol df sc g = some gcol →
      selectTable df (selFor df sc gcol) = some table →
      ∃ S, S.Perm table.rows ∧ List.Sorted (rowDescRel sc) S
        ∧ rep.top10 = S.take 10 ∧ rep.bottom10 = S.drop (S.length - 10)
        ∧ (table.rows.length ≤ 10 → rep.top10 = S ∧ rep.bottom10 = S))
    ∧ (∀ df0 pf rep table,
      analyze_total df0 pf = some rep →
      selectTable (if df0.cols.contains "Total" then df0 else add_total_marks df0)
          ["Name", "Roll Number", "Total"] = some table →
      ∃ S, S.Perm table.rows ∧ List.Sorted (rowDescRel "Total") S
        ∧ rep.top10 = S.take 10 ∧ rep.bottom10 = S.drop (S.length - 10)
        ∧ (table.rows.length ≤ 10 → rep.top10 = S ∧ rep.bottom10 = S)) := by
  constructor
  · intro df sc g pf rep gcol table h hg ht
    obtain ⟨-, gcol', table', hg', ht', hrep⟩ := analyze_subject_inv h
    have hgc : gcol' = gcol := Option.some.inj (hg'.symm.trans hg)
    rw [hgc] at ht' hrep
    have htc : table' = table := Option.some.inj (ht'.symm.trans ht)
    rw [htc] at hrep
    refine ⟨sortDescBy sc table.rows, sortDescBy_perm sc table.rows,
      sortDescBy_sorted sc table.rows, by rw [hrep]; rfl, by rw [hrep]; rfl, ?_⟩
    intro hlen
    have hslen : (sortDescBy sc table.rows).length = table.rows.length :=
      (sortDescBy_perm sc table.rows).length_eq
    constructor
    · rw [hrep]
      show (sortDescBy sc table.rows).take 10 = _
      exact List.take_of_length_le (by omega)
    · rw [hrep]
      show (sortDescBy sc table.rows).drop ((sortDescBy sc table.rows).length - 10) = _
      have : (sortDescBy sc table.rows).length - 10 = 0 := by omega
      rw [this, List.drop_zero]
  · intro df0 pf rep table h ht
    obtain ⟨table', mx, mn, ht', hmx, hmn, hrep⟩ := analyze_total_inv h
    have htc : table' = table := Option.some.inj (ht'.symm.trans ht)
    rw [htc] at hrep
    refine ⟨sortDescBy "Total" table.rows, sortDescBy_perm _ table.rows,
      sortDescBy_sorted _ table.rows, by rw [hrep]; rfl, by rw [hrep]; rfl, ?_⟩
    intro hlen
    have hslen : (sortDescBy "Total" table.rows).length = table.rows.length :=
      (sortDescBy_perm _ table.rows).length_eq
    constructor
    · rw [hrep]
      show (sortDescBy "Total" table.rows).take 10 = _
      exact List.take_of_length_le (by omega)
    · rw [hrep]
      show (sortDescBy "Total" table.rows).drop
          ((sortDescBy "Total" table.rows).length - 10) = _
      have : (sortDescBy "Total" table.rows).length - 10 = 0 := by omega
      rw [this, List.drop_zero]

/-- Witness for C6 on a parsed subject column (two rows, so top and bottom
each contain the whole sorted table). -/
theorem c6_rankings_witness :
    ∃ S, S.Perm ((selectTable exDf
        (selFor exDf "Subject1_Marks" none)).getD ⟨[], []⟩).rows
      ∧ List.Sorted (rowDescRel "Subject1_Marks") S
      ∧ ((analyze_subject exDf "Subject1_Marks" none true).getD
          ⟨[], [], none, ⟨none, none, none, none, none, 0⟩, []⟩).top10 = S.take 10
      ∧ ((analyze_subject exDf "Subject1_Marks" none true).getD
          ⟨[], [], none, ⟨none, none, none, none, none, 0⟩, []⟩).bottom10
        = S.drop (S.length - 10)
      ∧ (((selectTable exDf (selFor exDf "Subject1_Marks" none)).getD
            ⟨[], []⟩).rows.length ≤ 10 →
          ((analyze_subject exDf "Subject1_Marks" none true).getD
            ⟨[], [], none, ⟨none, none, none, none, none, 0⟩, []⟩).top10 = S
          ∧ ((analyze_subject exDf "Subject1_Marks" none true).getD
            ⟨[], [], none, ⟨none, none, none, none, none, 0⟩, []⟩).bottom10 = S) :=
  c6_rankings.1 exDf "Subject1_Marks" none true
    ((analyze_subject exDf "Subject1_Marks" none true).getD
      ⟨[], [], none, ⟨none, none, none, none, none, 0⟩, []⟩)
    none
    ((selectTable exDf (selFor exDf "Subject1_Marks" none)).getD ⟨[], []⟩)
    (by decide) (by decide) (by decide)

/-! ## Claim C7 -/

/-- **C7 counterexample.** The inference is not total: when the subject
column's name has no word (here the empty string, a valid pandas label that
is a column of the frame), `subject_col.lower().split()[0]` raises
`IndexError`, so `analyze_subject` returns no result at all rather than a
result with `grade_counts = None`. -/
theorem c7_counterexample_empty_subject :
    exDfEmptyCol.cols.contains "" = true
    ∧ analyze_subject exDfEmptyCol "" none true = none :=
  ⟨by decide, by decide⟩

/-- **C7 (amended).** For every dataframe and every subject column whose
name contains a word, when no grade column is supplied the inferred grade
column is the first column (in dataframe column order) whose lowercase name
starts with the first word of the lowercase subject name and contains
`"grade"`; when no such column exists, `grade_counts` in the result is
`None`. -/
theorem c7_grade_inference_amended :
    ∀ (df : DataFrame) (sc w : String),
      firstWord (pyLower sc) = some w →
      inferGradeCol df sc
        = some (df.cols.find? (fun c =>
            strStartsWith (pyLower c) w && strContains (pyLower c) "grade"))
      ∧ (∀ pf rep, analyze_subject df sc none pf = some rep →
          df.cols.find? (fun c =>
            strStartsWith (pyLower c) w && strContains (pyLower c) "grade") = none →
          rep.grade_counts = none) := by
  intro df sc w hw
  have hinf : inferGradeCol df sc
      = some ((df.cols.filter (fun c =>
          strStartsWith (pyLower c) w && strContains (pyLower c) "grade")).head?) := by
    unfold inferGradeCol
    rw [hw]
  constructor
  · rw [hinf, head_filter_eq_find]
  · intro pf rep h hfind
    obtain ⟨-, gcol, table, hg, -, hrep⟩ := analyze_subject_inv h
    have hg2 : resolveGradeCol df sc none = inferGradeCol df sc := rfl
    rw [hg2, hinf, head_filter_eq_find, hfind] at hg
    have hgc : gcol = none := (Option.some.inj hg).symm
    have hgrade : rep.grade_counts = gradeCountsFor df gcol := by
      rw [hrep]
      rfl
    rw [hgrade, hgc]
    rfl

/-- Witness for the amended C7: on the parsed frame the unmapped subject name
`Subject1_Marks` matches no grade column, and the returned `grade_counts` is
`None`. -/
theorem c7_grade_inference_amended_witness :
    inferGradeCol exDf "Subject1_Marks"
      = some (exDf.cols.find? (fun c =>
          strStartsWith (pyLower c) "subject1_marks"
            && strContains (pyLower c) "grade"))
    ∧ ((analyze_subject exDf "Subject1_Marks" none true).getD
        ⟨[], [], none, ⟨none, none, none, none, none, 0⟩, []⟩).grade_counts = none :=
  ⟨(c7_grade_inference_amended exDf "Subject1_Marks" "subject1_marks" (by decide)).1,
   (c7_grade_inference_amended exDf "Subject1_Marks" "subject1_marks" (by decide)).2
     true
     ((analyze_subject exDf "Subject1_Marks" none true).getD
       ⟨[], [], none, ⟨none, none, none, none, none, 0⟩, []⟩)
     (by decide) (by decide)⟩

/-! ## Soundness of the matcher combinators -/

theorem plusGreedy_sound {α : Type} (p : Char → Bool) (k : List Char → Option α) :
    ∀ (l : List Char) (x : α), plusGreedy p k l = some x →
      ∃ cs rest, l = cs ++ rest ∧ cs ≠ [] ∧ (∀ c ∈ cs, p c = true)
        ∧ k rest = some x
  | [], x, h => by simp [plusGreedy] at h
  | c :: r, x, h => by
    rw [show plusGreedy p k (c :: r)
        = if p c then
            match plusGreedy p k r with
            | some y => some y
            | none => k r
          else none from rfl] at h
    by_cases hp : p c
    · rw [if_pos hp] at h
      cases hrec : plusGreedy p k r with
      | some y =>
        rw [hrec] at h
        have hyx : y = x := by simpa using h
        obtain ⟨cs, rest, hl, hne, hall, hk⟩ := plusGreedy_sound p k r y hrec
        refine ⟨c :: cs, rest, by rw [hl]; rfl, by simp, ?_, hyx ▸ hk⟩
        intro d hd
        rcases List.mem_cons.mp hd with hdc | hdm
        · rw [hdc]; exact hp
        · exact hall d hdm
      | none =>
        rw [hrec] at h
        exact ⟨[c], r, rfl, by simp, by simpa using hp, h⟩
    · rw [if_neg hp] at h
      exact absurd h (by simp)

theorem plusGreedyCap_sound {α : Type} (p : Char → Bool)
    (k : List Char → List Char → Option α) :
    ∀ (l acc : List Char) (x : α), plusGreedyCap p k acc l = some x →
      ∃ cs rest, l = cs ++ rest ∧ cs ≠ [] ∧ (∀ c ∈ cs, p c = true)
        ∧ k (acc ++ cs) rest = some x
  | [], acc, x, h => by simp [plusGreedyCap] at h
  | c :: r, acc, x, h => by
    rw [show plusGreedyCap p k acc (c :: r)
        = if p c then
            match plusGreedyCap p k (acc ++ [c]) r with
            | some y => some y
            | none => k (acc ++ [c]) r
          else none from rfl] at h
    by_cases hp : p c
    · rw [if_pos hp] at h
      cases hrec : plusGreedyCap p k (acc ++ [c]) r with
      | some y =>
        rw [hrec] at h
        have hyx : y = x := by simpa using h
        obtain ⟨cs, rest, hl, hne, hall, hk⟩ :=
          plusGreedyCap_sound p k r (acc ++ [c]) y hrec
        refine ⟨c :: cs, rest, by rw [hl]; rfl, by simp, ?_, ?_⟩
        · intro d hd
          rcases List.mem_cons.mp hd with hdc | hdm
          · rw [hdc]; exact hp
          · exact hall d hdm
        · rw [show acc ++ c :: cs = (acc ++ [c]) ++ cs by simp]
          exact hyx ▸ hk
      | none =>
        rw [hrec] at h
        exact ⟨[c], r, rfl, by simp, by simpa using hp, h⟩
    · rw [if_neg hp] at h
      exact absurd h (by simp)

/-- Soundness plus lazy minimality: the capture of a lazy `+?` is the
*shortest* non-empty prefix on which the continuation succeeds. -/
theorem plusLazyCap_sound_min {α : Type} (p : Char → Bool)
    (k : List Char → List Char → Option α) :
    ∀ (l acc : List Char) (x : α), plusLazyCap p k acc l = some x →
      ∃ cs rest, l = cs ++ rest ∧ cs ≠ [] ∧ (∀ c ∈ cs, p c = true)
        ∧ k (acc ++ cs) rest = some x
        ∧ ∀ cs1 rest1, l = cs1 ++ rest1 → cs1 ≠ [] → cs1.length < cs.length →
            k (acc ++ cs1) rest1 = none
  | [], acc, x, h => by simp [plusLazyCap] at h
  | c :: r, acc, x, h => by
    rw [show plusLazyCap p k acc (c :: r)
        = if p c then
            match k (acc ++ [c]) r with
            | some y => some y
            | none => plusLazyCap p k (acc ++ [c]) r
          else none from rfl] at h
    by_cases hp : p c
    · rw [if_pos hp] at h
      cases hk : k (acc ++ [c]) r with
      | some y =>
        rw [hk] at h
        have hyx : y = x := by simpa using h
        refine ⟨[c], r, rfl, by simp, by simpa using hp, hyx ▸ hk, ?_⟩
        intro cs1 rest1 _ hne1 hlt1
        have : cs1.length = 0 := by simpa using Nat.lt_one_iff.mp hlt1
        exact absurd (List.length_eq_zero.mp this) hne1
      | none =>
        rw [hk] at h
        have h2 : plusLazyCap p k (acc ++ [c]) r = some x := by simpa using h
        obtain ⟨cs, rest, hl, hne, hall, hkk, hmin⟩ :=
          plusLazyCap_sound_min p k r (acc ++ [c]) x h2
        refine ⟨c :: cs, rest, by rw [hl]; rfl, by simp, ?_, ?_, ?_⟩
        · intro d hd
          rcases List.mem_cons.mp hd with hdc | hdm
          · rw [hdc]; exact hp
          · exact hall d hdm
        · rw [show acc ++ c :: cs = (acc ++ [c]) ++ cs by simp]
          exact hkk
        · intro cs1 rest1 heq hne1 hlt1
          cases cs1 with
          | nil => exact absurd rfl hne1
          | cons c1 cs1t =>
            have hparts : c1 = c ∧ r = cs1t ++ rest1 := by
              have h3 := heq
              simp only [List.cons_append, List.cons.injEq] at h3
              exact ⟨h3.1.symm, h3.2⟩
            obtain ⟨hc1e, hrsplit⟩ := hparts
            by_cases hcs1t : cs1t = []
            · rw [hc1e, hcs1t]
              rw [hcs1t] at hrsplit
              simp only [List.nil_append] at hrsplit
              rw [← hrsplit]
              exact hk
            · have hlt2 : cs1t.length < cs.length := by
                have h4 := hlt1
                simp only [List.length_cons] at h4
                omega
              have h5 := hmin cs1t rest1 hrsplit hcs1t hlt2
              rw [hc1e, show acc ++ c :: cs1t = (acc ++ [c]) ++ cs1t by simp]
              exact h5
    · rw [if_neg hp] at h
      exact absurd h (by simp)

/-- Whether a greedy `\s+`-then-check succeeds depends only on whether the
check succeeds, not on what it returns. -/
theorem plusGreedy_isSome_congr {α β : Type} (p : Char → Bool)
    (k1 : List Char → Option α) (k2 : List Char → Option β)
    (hk : ∀ r, (k1 r).isSome = (k2 r).isSome) :
    ∀ l, (plusGreedy p k1 l).isSome = (plusGreedy p k2 l).isSome
  | [] => by simp [plusGreedy]
  | c :: r => by
    have ih := plusGreedy_isSome_congr p k1 k2 hk r
    rw [show plusGreedy p k1 (c :: r)
        = if p c then
            match plusGreedy p k1 r with
            | some y => some y
            | none => k1 r
          else none from rfl,
      show plusGreedy p k2 (c :: r)
        = if p c then
            match plusGreedy p k2 r with
            | some y => some y
            | none => k2 r
          else none from rfl]
    by_cases hp : p c
    · rw [if_pos hp, if_pos hp]
      cases h1 : plusGreedy p k1 r <;> cases h2 : plusGreedy p k2 r <;>
        rw [h1, h2] at ih <;> simp_all [hk r]
    · rw [if_neg hp, if_neg hp]
      rfl

/-! ## Claim C4 -/

/-- **C4.** The strict identity pattern is tried first and its result used
when it matches; the lenient pattern is consulted only when the strict one
fails.  A strict match decomposes the line as
`roll ++ spaces ++ gender ++ spaces ++ name ++ spaces ++ three-digit code`,
and the captured name is *minimal*: no shorter (non-empty) name prefix is
already followed by `\s+\d{3}` — i.e. the name is what stands before the
first three-digit code. -/
theorem c4_strict_then_fallback :
    (∀ l r2, matchStrict l = some r2 → matchLine1 l = some r2)
    ∧ (∀ l, matchStrict l = none → matchLine1 l = matchFallback l)
    ∧ (∀ l roll g name, matchStrict l = some (roll, g, name) →
        ∃ w1 w2 tail, l = roll ++ w1 ++ g :: (w2 ++ (name ++ tail))
          ∧ roll ≠ [] ∧ (∀ c ∈ roll, c.isDigit = true)
          ∧ w1 ≠ [] ∧ (∀ c ∈ w1, pyIsSpace c = true)
          ∧ (g = 'M' ∨ g = 'F')
          ∧ w2 ≠ [] ∧ (∀ c ∈ w2, pyIsSpace c = true)
          ∧ name ≠ [] ∧ (∀ c ∈ name, isDot c = true)
          ∧ sp3d tail = true
          ∧ (∀ j, 1 ≤ j → j < name.length →
              sp3d (name.drop j ++ tail) = false)) := by
  refine ⟨?_, ?_, ?_⟩
  · intro l r2 h
    simp [matchLine1, h]
  · intro l h
    simp [matchLine1, h]
  · intro l roll g name h
    unfold matchStrict at h
    obtain ⟨ds, r1, hl, hdne, hdall, hK⟩ :=
      plusGreedyCap_sound Char.isDigit _ l [] _ h
    simp only [List.nil_append] at hK
    obtain ⟨w1, r2, hr1, hw1ne, hw1all, hK2⟩ :=
      plusGreedy_sound pyIsSpace _ r1 _ hK
    cases r2 with
    | nil => simp at hK2
    | cons g' r3 =>
      dsimp only at hK2
      by_cases hg' : g' = 'M' ∨ g' = 'F'
      · rw [if_pos hg'] at hK2
        obtain ⟨w2, r4, hr3, hw2ne, hw2all, hK3⟩ :=
          plusGreedy_sound pyIsSpace _ r3 _ hK2
        obtain ⟨nm, tail, hr4, hnmne, hnmall, hKN, hmin⟩ :=
          plusLazyCap_sound_min isDot _ r4 [] _ hK3
        simp only [List.nil_append] at hKN
        obtain ⟨w3, r6, htail, hw3ne, hw3all, hfin⟩ :=
          plusGreedy_sound pyIsSpace _ tail _ hKN
        by_cases h3d : threeDigitsHead r6
        · rw [if_pos h3d] at hfin
          have hds : ds = roll ∧ g' = g ∧ nm = name := by
            have := Option.some.inj hfin
            simp only [Prod.mk.injEq] at this
            exact ⟨this.1, this.2.1, this.2.2⟩
          obtain ⟨hdsr, hg'g, hnmn⟩ := hds
          have hcheck : ∀ (v : List Char × Char × List Char),
              ∀ r : List Char,
              ((fun r7 => if threeDigitsHead r7 then some v else none) r).isSome
                = ((fun r7 => if threeDigitsHead r7 then some () else none) r).isSome := by
            intro v r
            by_cases h3 : threeDigitsHead r <;> simp [h3]
          refine ⟨w1, w2, tail, ?_, ?_, ?_, hw1ne, hw1all, ?_, hw2ne, hw2all, ?_, ?_, ?_, ?_⟩
          · rw [hl, hr1, hr3, hr4, hdsr, hg'g, hnmn]
            simp
          · rw [← hdsr]; exact hdne
          · rw [← hdsr]; exact hdall
          · rw [← hg'g]; exact hg'
          · rw [← hnmn]; exact hnmne
          · rw [← hnmn]; exact hnmall
          · show (plusGreedy pyIsSpace
              (fun r7 => if threeDigitsHead r7 then some () else none) tail).isSome = true
            rw [← plusGreedy_isSome_congr pyIsSpace _ _ (hcheck (ds, g', nm)) tail]
            rw [hKN]
            rfl
          · intro j hj1 hj2
            have hjlen : j ≤ nm.length := by rw [hnmn]; omega
            have hsplit : r4 = nm.take j ++ (nm.drop j ++ tail) := by
              rw [hr4, ← List.append_assoc, List.take_append_drop]
            have htkne : nm.take j ≠ [] := by
              have : (nm.take j).length = j := by
                rw [List.length_take]
                omega
              intro he
              rw [he] at this
              simp at this
              omega
            have htklt : (nm.take j).length < nm.length := by
              rw [List.length_take]
              have h6 : nm.length = name.length := by rw [hnmn]
              omega
            have hmj := hmin (nm.take j) (nm.drop j ++ tail) hsplit htkne htklt
            simp only [List.nil_append] at hmj
            show (plusGreedy pyIsSpace
              (fun r7 => if threeDigitsHead r7 then some () else none)
              (name.drop j ++ tail)).isSome = false
            rw [← plusGreedy_isSome_congr pyIsSpace _ _ (hcheck (ds, g', nm.take j))
              (name.drop j ++ tail)]
            rw [← hnmn, hmj]
            rfl
        · rw [if_neg h3d] at hfin
          exact absurd hfin (by simp)
      · rw [if_neg hg'] at hK2
        exact absurd hK2 (by simp)

/-- Witness for C4 at a concrete identity line. -/
theorem c4_strict_then_fallback_witness :
    ∃ w1 w2 tail,
      "1001 M John Sharma 041 042".toList
        = "1001".toList ++ w1 ++ 'M' :: (w2 ++ ("John Sharma".toList ++ tail))
      ∧ "1001".toList ≠ [] ∧ (∀ c ∈ "1001".toList, c.isDigit = true)
      ∧ w1 ≠ [] ∧ (∀ c ∈ w1, pyIsSpace c = true)
      ∧ ('M' = 'M' ∨ 'M' = 'F')
      ∧ w2 ≠ [] ∧ (∀ c ∈ w2, pyIsSpace c = true)
      ∧ "John Sharma".toList ≠ [] ∧ (∀ c ∈ "John Sharma".toList, isDot c = true)
      ∧ sp3d tail = true
      ∧ (∀ j, 1 ≤ j → j < "John Sharma".toList.length →
          sp3d ("John Sharma".toList.drop j ++ tail) = false) :=
  c4_strict_then_fallback.2.2 "1001 M John Sharma 041 042".toList
    "1001".toList 'M' "John Sharma".toList (by decide)

/-! ## Columns of a frame built from rows -/

theorem contains_of_mem {l : List String} {x : String} (h : x ∈ l) :
    l.contains x = true := by simpa using h

theorem dfColumns_mem_of_aux :
    ∀ (rows : List Row) (acc : List String) (x : String),
      (x ∈ acc ∨ ∃ r ∈ rows, x ∈ rowKeys r) →
      x ∈ rows.foldl
        (fun acc r => acc ++ (rowKeys r).filter (fun k => !acc.contains k)) acc
  | [], acc, x, h => by
    rcases h with h | ⟨r, hr, _⟩
    · exact h
    · simp at hr
  | r0 :: rest, acc, x, h => by
    apply dfColumns_mem_of_aux rest
    rcases h with h | ⟨r, hr, hk⟩
    · exact Or.inl (List.mem_append.mpr (Or.inl h))
    · rcases List.mem_cons.mp hr with hr0 | hrr
      · left
        by_cases hin : x ∈ acc
        · exact List.mem_append.mpr (Or.inl hin)
        · refine List.mem_append.mpr (Or.inr ?_)
          refine List.mem_filter.mpr ⟨hr0 ▸ hk, ?_⟩
          simp [hin]
      · exact Or.inr ⟨r, hrr, hk⟩

theorem dfColumns_shape_aux :
    ∀ (rows : List Row) (acc : List String) (x : String),
      x ∈ rows.foldl
        (fun acc r => acc ++ (rowKeys r).filter (fun k => !acc.contains k)) acc →
      x ∈ acc ∨ ∃ r ∈ rows, x ∈ rowKeys r
  | [], acc, x, h => Or.inl h
  | r0 :: rest, acc, x, h => by
    rcases dfColumns_shape_aux rest _ x h with h2 | ⟨r, hr, hk⟩
    · rcases List.mem_append.mp h2 with h3 | h3
      · exact Or.inl h3
      · exact Or.inr ⟨r0, List.mem_cons_self r0 rest, List.mem_of_mem_filter h3⟩
    · exact Or.inr ⟨r, List.mem_cons_of_mem r0 hr, hk⟩

theorem mem_dfColumns_of {rows : List Row} {r : Row} {k : String}
    (hr : r ∈ rows) (hk : k ∈ rowKeys r) : k ∈ dfColumns rows :=
  dfColumns_mem_of_aux rows [] k (Or.inr ⟨r, hr, hk⟩)

theorem exists_row_of_mem_dfColumns {rows : List Row} {x : String}
    (hx : x ∈ dfColumns rows) : ∃ r ∈ rows, x ∈ rowKeys r := by
  rcases dfColumns_shape_aux rows [] x hx with h | h
  · simp at h
  · exact h

/-! ## Shape of a parsed row's keys -/

theorem rowOfPair_key_shape (l1 l2 : List Char) (row : Row)
    (h : rowOfPair l1 l2 = some row) :
    ∀ k ∈ rowKeys row, k = "Roll Number" ∨ k = "Name" ∨ k = "Gender"
      ∨ ∃ i suf, (suf = "_Marks" ∨ suf = "_Grade") ∧ k = subjKey i suf := by
  intro k hk
  rw [rowKeys_rowOfPair l1 l2 row h] at hk
  rcases List.mem_append.mp hk with hb | hf
  · simp only [List.mem_cons, List.mem_singleton] at hb
    rcases hb with h1 | h2 | h3 | h4
    · exact Or.inl h1
    · exact Or.inr (Or.inl h2)
    · exact Or.inr (Or.inr (Or.inl h3))
    · simp at h4
  · obtain ⟨a, _, hk2⟩ := List.mem_flatMap.mp hf
    simp only [List.mem_cons, List.mem_singleton] at hk2
    rcases hk2 with h1 | h2
    · exact Or.inr (Or.inr (Or.inr ⟨a + 1, "_Marks", Or.inl rfl, h1⟩))
    · rcases h2 with h2 | h3
      · exact Or.inr (Or.inr (Or.inr ⟨a + 1, "_Grade", Or.inr rfl, h2⟩))
      · simp at h3

/-! ## Every parsed column name has a first word -/

theorem firstWord_subjKey (i : ℕ) (suf : String) :
    (firstWord (pyLower (subjKey i suf))).isSome = true := by
  have h1 : (pyLower (subjKey i suf)).toList
      = 's' :: (("ubject".data ++ ((toString i).data ++ suf.data)).map
          Char.toLower) := by
    show (("Subject" ++ toString i ++ suf).data).map Char.toLower = _
    rw [String.data_append, String.data_append]
    rw [List.append_assoc]
    rw [show "Subject".data ++ ((toString i).data ++ suf.data)
        = 'S' :: ("ubject".data ++ ((toString i).data ++ suf.data)) from rfl]
    rw [List.map_cons]
    rfl
  unfold firstWord
  rw [h1, List.dropWhile_cons]
  rw [show pyIsSpace 's' = false from rfl]
  simp

theorem parse_col_firstWord (lines : List (List Char)) (c : String)
    (hc : c ∈ (parse_student_data_from_lines lines).cols) :
    (firstWord (pyLower c)).isSome = true := by
  obtain ⟨r, hr, hk⟩ := exists_row_of_mem_dfColumns hc
  have hr2 : r ∈ (chunk2 (normalizeLines lines)).filterMap
      (fun p => rowOfPair p.1 p.2) := by
    rw [← parseRowsNorm_eq_chunk]
    exact hr
  obtain ⟨p, _, hrp⟩ := List.mem_filterMap.mp hr2
  rcases rowOfPair_key_shape p.1 p.2 r hrp c hk with h1 | h2 | h3 | ⟨i, suf, _, hks⟩
  · rw [h1]; decide
  · rw [h2]; decide
  · rw [h3]; decide
  · rw [hks]; exact firstWord_subjKey i suf

/-! ## Columns of `add_total_marks` -/

theorem mem_addTotal_cols {df : DataFrame} {c : String} (h : c ∈ df.cols) :
    c ∈ (add_total_marks df).cols := by
  show c ∈ (if df.cols.contains "Total" then df.cols else df.cols ++ ["Total"])
  by_cases ht : "Total" ∈ df.cols <;> simp [ht, h]

theorem total_mem_addTotal_cols (df : DataFrame) :
    "Total" ∈ (add_total_marks df).cols := by
  show "Total" ∈ (if df.cols.contains "Total" then df.cols else df.cols ++ ["Total"])
  by_cases ht : "Total" ∈ df.cols <;> simp [ht]

theorem addTotal_cols_sub {df : DataFrame} {c : String}
    (h : c ∈ (add_total_marks df).cols) : c ∈ df.cols ∨ c = "Total" := by
  have h2 : c ∈ (if df.cols.contains "Total" then df.cols else df.cols ++ ["Total"]) := h
  by_cases ht : "Total" ∈ df.cols <;> simp [ht] at h2
  · exact Or.inl h2
  · exact h2

theorem addTotal_total_cell (df : DataFrame) (r : Row)
    (hr : r ∈ (add_total_marks df).rows) : ∃ q, getCell r "Total" = Cell.num q := by
  obtain ⟨r0, _, hre⟩ := List.mem_map.mp hr
  exact ⟨rowTotal (get_subject_mark_cols df) r0,
    by rw [← hre]; exact getCell_setCell_same r0 "Total" _⟩

/-! ## Success of the analysis calls -/

theorem seriesMax_isSome_of {s : List (Option ℚ)} {q : ℚ} (h : some q ∈ s) :
    (seriesMax s).isSome = true := by
  rw [seriesMax_eq]
  have hm : q ∈ s.filterMap id := List.mem_filterMap.mpr ⟨some q, h, rfl⟩
  cases hf : s.filterMap id with
  | nil => rw [hf] at hm; simp at hm
  | cons a t => simp [List.max?]

theorem seriesMin_isSome_of {s : List (Option ℚ)} {q : ℚ} (h : some q ∈ s) :
    (seriesMin s).isSome = true := by
  rw [seriesMin_eq]
  have hm : q ∈ s.filterMap id := List.mem_filterMap.mpr ⟨some q, h, rfl⟩
  cases hf : s.filterMap id with
  | nil => rw [hf] at hm; simp at hm
  | cons a t => simp [List.min?]

theorem analyze_subject_succeeds (df : DataFrame) (c : String)
    (garg : Option String) (pf : Bool)
    (hc : c ∈ df.cols) (hn : "Name" ∈ df.cols) (hr : "Roll Number" ∈ df.cols)
    (hw : garg = none → (firstWord (pyLower c)).isSome = true) :
    ∃ rep, analyze_subject df c garg pf = some rep := by
  have hres : ∃ gcol, resolveGradeCol df c garg = some gcol := by
    cases garg with
    | some g => exact ⟨some g, rfl⟩
    | none =>
      have hfw := hw rfl
      unfold resolveGradeCol inferGradeCol
      cases hfw2 : firstWord (pyLower c) with
      | none => rw [hfw2] at hfw; simp at hfw
      | some w => exact ⟨_, rfl⟩
  obtain ⟨gcol, hg⟩ := hres
  have hsel : (selFor df c gcol).all (fun x => df.cols.contains x) = true := by
    rw [List.all_eq_true]
    intro x hx
    unfold selFor at hx
    rcases List.mem_append.mp hx with hx | hx
    · simp only [List.mem_cons, List.mem_singleton] at hx
      rcases hx with h1 | h2 | h3 | h4
      · exact contains_of_mem (h1 ▸ hn)
      · exact contains_of_mem (h2 ▸ hr)
      · exact contains_of_mem (h3 ▸ hc)
      · simp at h4
    · cases gcol with
      | none => simp at hx
      | some g =>
        dsimp only at hx
        by_cases hgin : df.cols.contains g
        · rw [if_pos hgin] at hx
          simp only [List.mem_singleton] at hx
          rw [hx]
          exact hgin
        · rw [if_neg hgin] at hx
          simp at hx
  refine ⟨mkSubjectReport df c gcol
    ⟨selFor df c gcol,
     df.rows.map (fun r => (selFor df c gcol).map (fun cc => (cc, getCell r cc)))⟩ pf, ?_⟩
  unfold analyze_subject
  rw [if_pos (contains_of_mem hc), hg]
  have hst : selectTable df (selFor df c gcol)
      = some ⟨selFor df c gcol,
          df.rows.map (fun r => (selFor df c gcol).map (fun cc => (cc, getCell r cc)))⟩ := by
    unfold selectTable
    rw [if_pos hsel]
  rw [show (Bind.bind : Option (Option String) → _ → Option SubjectReport)
      = Option.bind from rfl]
  simp only [Option.some_bind]
  rw [show (Bind.bind : Option DataFrame → _ → Option SubjectReport)
      = Option.bind from rfl]
  rw [hst]
  simp only [Option.some_bind]

theorem analyze_total_succeeds (df : DataFrame) (pf : Bool)
    (hn : "Name" ∈ df.cols) (hr : "Roll Number" ∈ df.cols)
    (ht : "Total" ∈ df.cols)
    (hq : ∃ q, some q ∈ df.rows.map (fun r => cellNum (getCell r "Total"))) :
    ∃ rep, analyze_total df pf = some rep := by
  obtain ⟨q, hqm⟩ := hq
  have hmx := seriesMax_isSome_of hqm
  have hmn := seriesMin_isSome_of hqm
  obtain ⟨mx, hmx2⟩ := Option.isSome_iff_exists.mp hmx
  obtain ⟨mn, hmn2⟩ := Option.isSome_iff_exists.mp hmn
  have hsel : (["Name", "Roll Number", "Total"] : List String).all
      (fun x => df.cols.contains x) = true := by
    rw [List.all_eq_true]
    intro x hx
    simp only [List.mem_cons, List.mem_singleton] at hx
    rcases hx with h1 | h2 | h3 | h4
    · exact contains_of_mem (h1 ▸ hn)
    · exact contains_of_mem (h2 ▸ hr)
    · exact contains_of_mem (h3 ▸ ht)
    · simp at h4
  have hst : selectTable df ["Name", "Roll Number", "Total"]
      = some ⟨["Name", "Roll Number", "Total"],
          df.rows.map (fun r =>
            (["Name", "Roll Number", "Total"] : List String).map
              (fun cc => (cc, getCell r cc)))⟩ := by
    unfold selectTable
    rw [if_pos hsel]
  refine ⟨mkTotalReport df
    ⟨["Name", "Roll Number", "Total"],
     df.rows.map (fun r =>
       (["Name", "Roll Number", "Total"] : List String).map
         (fun cc => (cc, getCell r cc)))⟩ mx mn pf, ?_⟩
  unfold analyze_total
  rw [if_pos (contains_of_mem ht)]
  dsimp only
  rw [show (Bind.bind : Option DataFrame → _ → Option TotalReport)
      = Option.bind from rfl]
  rw [hst]
  simp only [Option.some_bind]
  rw [show (Bind.bind : Option ℚ → _ → Option TotalReport)
      = Option.bind from rfl]
  rw [hmx2]
  simp only [Option.some_bind]
  rw [hmn2]
  simp only [Option.some_bind]

/-! ## The per-subject report loop -/

theorem subjectSheets_ok (df : DataFrame) :
    ∀ subjects : List String,
      (∀ s ∈ subjects, ∃ rep,
        analyze_subject df s (gradeColFor df s) true = some rep) →
      ∃ shs imgs, subjectSheets df subjects = some (shs, imgs)
        ∧ ∀ s ∈ subjects, ∃ rep,
            analyze_subject df s (gradeColFor df s) true = some rep
            ∧ Sheet.table (s ++ "_Top") rep.top10 ∈ shs
            ∧ Sheet.table (s ++ "_Bottom") rep.bottom10 ∈ shs
            ∧ (rep.grade_counts ≠ none → (s ++ "_Grades") ∈ shs.map sheetName)
            ∧ ∀ f ∈ rep.figs, (s ++ "_" ++ f ++ ".png") ∈ imgs
  | [], _ => ⟨[], [], rfl, by simp⟩
  | s0 :: rest, h => by
    obtain ⟨rep0, hrep0⟩ := h s0 (List.mem_cons_self s0 rest)
    obtain ⟨shs, imgs, hsub, hall⟩ :=
      subjectSheets_ok df rest (fun s hs => h s (List.mem_cons_of_mem s0 hs))
    refine ⟨[Sheet.table (s0 ++ "_Top") rep0.top10,
             Sheet.table (s0 ++ "_Bottom") rep0.bottom10]
            ++ (match rep0.grade_counts with
                | some gc =>
                  [Sheet.counts (s0 ++ "_Grades")
                    (match gradeColFor df s0 with
                     | some g => if g ≠ "" then g else "Grade"
                     | none => "Grade") gc]
                | none => []) ++ shs,
        rep0.figs.map (fun nm => s0 ++ "_" ++ nm ++ ".png") ++ imgs, ?_, ?_⟩
    · unfold subjectSheets
      rw [show (Bind.bind : Option SubjectReport → _
          → Option (List Sheet × List String)) = Option.bind from rfl]
      rw [hrep0]
      simp only [Option.some_bind]
      rw [show (Bind.bind : Option (List Sheet × List String) → _
          → Option (List Sheet × List String)) = Option.bind from rfl]
      rw [hsub]
      simp only [Option.some_bind]
    · intro s hs
      rcases List.mem_cons.mp hs with hs0 | hsr
      · refine ⟨rep0, hs0 ▸ hrep0, ?_, ?_, ?_, ?_⟩
        · rw [hs0]
          simp
        · rw [hs0]
          simp
        · intro hgc
          rw [hs0]
          cases hg : rep0.grade_counts with
          | none => exact absurd hg hgc
          | some gc => simp [hg, sheetName]
        · intro f hf
          rw [hs0]
          exact List.mem_append.mpr (Or.inl (List.mem_map.mpr ⟨f, hf, rfl⟩))
      · obtain ⟨rep, hrep, ht1, ht2, ht3, ht4⟩ := hall s hsr
        refine ⟨rep, hrep, ?_, ?_, ?_, ?_⟩
        · exact List.mem_append.mpr (Or.inr ht1)
        · exact List.mem_append.mpr (Or.inr ht2)
        · intro hgc
          rw [List.map_append]
          exact List.mem_append.mpr (Or.inr (ht3 hgc))
        · intro f hf
          exact List.mem_append.mpr (Or.inr (ht4 f hf))

/-! ## Claim C8 -/

/-- **C8.** For every non-empty parsed frame, the report builder succeeds
and its workbook contains an `All Data` sheet with the full table (with
`Total`), a `Charts` sheet into which every per-subject and total chart
image is inserted, per-subject `_Top` and `_Bottom` sheets (plus a
`_Grades` sheet when a grade column exists, i.e. the grade counts are not
`None`) for each subject mark column other than `Total`, and `Total_Top` /
`Total_Bottom` sheets. -/
theorem c8_report_sheets :
    ∀ lines : List (List Char),
      (parse_student_data_from_lines lines).rows ≠ [] →
      ∃ sheets imgsAll,
        save_full_report_excel_bytes (parse_student_data_from_lines lines)
          = some sheets
        ∧ Sheet.table "All Data"
            (add_total_marks (parse_student_data_from_lines lines)).rows ∈ sheets
        ∧ Sheet.charts "Charts" imgsAll ∈ sheets
        ∧ (∀ s ∈ (get_subject_mark_cols
              (add_total_marks (parse_student_data_from_lines lines))).filter
              (fun c => c ≠ "Total"),
            ∃ rep, analyze_subject
                (add_total_marks (parse_student_data_from_lines lines)) s
                (gradeColFor (add_total_marks (parse_student_data_from_lines lines)) s)
                true = some rep
              ∧ (s ++ "_Top") ∈ sheets.map sheetName
              ∧ (s ++ "_Bottom") ∈ sheets.map sheetName
              ∧ (rep.grade_counts ≠ none → (s ++ "_Grades") ∈ sheets.map sheetName)
              ∧ ∀ f ∈ rep.figs, (s ++ "_" ++ f ++ ".png") ∈ imgsAll)
        ∧ (∀ trep, analyze_total
              (add_total_marks (parse_student_data_from_lines lines)) true
                = some trep →
            ∀ f ∈ trep.figs, ("Total_" ++ f ++ ".png") ∈ imgsAll)
        ∧ "Total_Top" ∈ sheets.map sheetName
        ∧ "Total_Bottom" ∈ sheets.map sheetName := by
  intro lines hne
  obtain ⟨r0, rest0, hr0⟩ : ∃ r0 rest0,
      (parse_student_data_from_lines lines).rows = r0 :: rest0 := by
    cases h : (parse_student_data_from_lines lines).rows with
    | nil => exact absurd h hne
    | cons a t => exact ⟨a, t, rfl⟩
  have hr0mem : r0 ∈ (parse_student_data_from_lines lines).rows := by
    rw [hr0]
    exact List.mem_cons_self r0 rest0
  have hr0chunk : r0 ∈ (chunk2 (normalizeLines lines)).filterMap
      (fun p => rowOfPair p.1 p.2) := by
    rw [← parseRowsNorm_eq_chunk]
    exact hr0mem
  obtain ⟨p0, _, hp0⟩ := List.mem_filterMap.mp hr0chunk
  have hkeys := rowKeys_rowOfPair p0.1 p0.2 r0 hp0
  have hn0 : "Name" ∈ (parse_student_data_from_lines lines).cols := by
    apply mem_dfColumns_of hr0mem
    rw [hkeys]
    simp
  have hrn0 : "Roll Number" ∈ (parse_student_data_from_lines lines).cols := by
    apply mem_dfColumns_of hr0mem
    rw [hkeys]
    simp
  have hn : "Name" ∈ (add_total_marks (parse_student_data_from_lines lines)).cols :=
    mem_addTotal_cols hn0
  have hrn : "Roll Number"
      ∈ (add_total_marks (parse_student_data_from_lines lines)).cols :=
    mem_addTotal_cols hrn0
  have ht : "Total" ∈ (add_total_marks (parse_student_data_from_lines lines)).cols :=
    total_mem_addTotal_cols _
  have hsubjects : ∀ s ∈ (get_subject_mark_cols
      (add_total_marks (parse_student_data_from_lines lines))).filter
      (fun c => c ≠ "Total"),
      ∃ rep, analyze_subject (add_total_marks (parse_student_data_from_lines lines))
        s (gradeColFor (add_total_marks (parse_student_data_from_lines lines)) s)
        true = some rep := by
    intro s hs
    have hsm := List.mem_of_mem_filter hs
    have hsne : s ≠ "Total" := by
      have := List.of_mem_filter hs
      simpa using this
    have hscol : s ∈ (add_total_marks (parse_student_data_from_lines lines)).cols :=
      List.mem_of_mem_filter hsm
    have hsfw : (firstWord (pyLower s)).isSome = true := by
      rcases addTotal_cols_sub hscol with h2 | h2
      · exact parse_col_firstWord lines s h2
      · exact absurd h2 hsne
    exact analyze_subject_succeeds _ s _ true hscol hn hrn (fun _ => hsfw)
  obtain ⟨shs, imgs, hsub, hall⟩ := subjectSheets_ok _ _ hsubjects
  have hdfrows : (add_total_marks (parse_student_data_from_lines lines)).rows
      = ((parse_student_data_from_lines lines).rows.map (fun r =>
          setCell r "Total" (Cell.num (rowTotal
            (get_subject_mark_cols (parse_student_data_from_lines lines)) r)))) := rfl
  have hq : ∃ q, some q
      ∈ (add_total_marks (parse_student_data_from_lines lines)).rows.map
        (fun r => cellNum (getCell r "Total")) := by
    have hr1 : (setCell r0 "Total" (Cell.num (rowTotal
        (get_subject_mark_cols (parse_student_data_from_lines lines)) r0)))
        ∈ (add_total_marks (parse_student_data_from_lines lines)).rows := by
      rw [hdfrows]
      exact List.mem_map.mpr ⟨r0, hr0mem, rfl⟩
    obtain ⟨q, hcell⟩ := addTotal_total_cell _ _ hr1
    refine ⟨q, List.mem_map.mpr ⟨_, hr1, ?_⟩⟩
    rw [hcell]
    rfl
  obtain ⟨trep, htrep⟩ := analyze_total_succeeds _ true hn hrn ht hq
  refine ⟨[Sheet.table "All Data"
        (add_total_marks (parse_student_data_from_lines lines)).rows,
      Sheet.charts "Charts"
        (imgs ++ trep.figs.map (fun nm => "Total_" ++ nm ++ ".png"))] ++ shs
      ++ [Sheet.table "Total_Top" trep.top10,
          Sheet.table "Total_Bottom" trep.bottom10],
    imgs ++ trep.figs.map (fun nm => "Total_" ++ nm ++ ".png"), ?_, ?_, ?_, ?_, ?_, ?_, ?_⟩
  · unfold save_full_report_excel_bytes
    dsimp only
    rw [show (Bind.bind : Option (List Sheet × List String) → _
        → Option (List Sheet)) = Option.bind from rfl]
    rw [hsub]
    simp only [Option.some_bind]
    rw [htrep]
    rfl
  · exact List.mem_cons_self _ _
  · exact List.mem_cons_of_mem _ (List.mem_cons_self _ _)
  · intro s hs
    obtain ⟨rep, hrep, ht1, ht2, ht3, ht4⟩ := hall s hs
    refine ⟨rep, hrep, ?_, ?_, ?_, ?_⟩
    · simp only [List.map_append, List.mem_append]
      exact Or.inl (Or.inr (List.mem_map.mpr ⟨_, ht1, rfl⟩))
    · simp only [List.map_append, List.mem_append]
      exact Or.inl (Or.inr (List.mem_map.mpr ⟨_, ht2, rfl⟩))
    · intro hgc
      simp only [List.map_append, List.mem_append]
      exact Or.inl (Or.inr (ht3 hgc))
    · intro f hf
      exact List.mem_append.mpr (Or.inl (ht4 f hf))
  · intro trep2 htrep2
    intro f hf
    have htt : trep2 = trep := Option.some.inj (htrep2.symm.trans htrep)
    rw [htt] at hf
    exact List.mem_append.mpr (Or.inr (List.mem_map.mpr ⟨f, hf, rfl⟩))
  · simp [sheetName]
  · simp [sheetName]

/-- Witness for C8 at the concrete two-student input. -/
theorem c8_report_sheets_witness :
    ∃ sheets imgsAll,
      save_full_report_excel_bytes (parse_student_data_from_lines exLines)
        = some sheets
      ∧ Sheet.table "All Data"
          (add_total_marks (parse_student_data_from_lines exLines)).rows ∈ sheets
      ∧ Sheet.charts "Charts" imgsAll ∈ sheets
      ∧ (∀ s ∈ (get_subject_mark_cols
            (add_total_marks (parse_student_data_from_lines exLines))).filter
            (fun c => c ≠ "Total"),
          ∃ rep, analyze_subject
              (add_total_marks (parse_student_data_from_lines exLines)) s
              (gradeColFor (add_total_marks (parse_student_data_from_lines exLines)) s)
              true = some rep
            ∧ (s ++ "_Top") ∈ sheets.map sheetName
            ∧ (s ++ "_Bottom") ∈ sheets.map sheetName
            ∧ (rep.grade_counts ≠ none → (s ++ "_Grades") ∈ sheets.map sheetName)
            ∧ ∀ f ∈ rep.figs, (s ++ "_" ++ f ++ ".png") ∈ imgsAll)
      ∧ (∀ trep, analyze_total
            (add_total_marks (parse_student_data_from_lines exLines)) true
              = some trep →
          ∀ f ∈ trep.figs, ("Total_" ++ f ++ ".png") ∈ imgsAll)
      ∧ "Total_Top" ∈ sheets.map sheetName
      ∧ "Total_Bottom" ∈ sheets.map sheetName :=
  c8_report_sheets exLines (by decide)
